import Mathlib

/-!
# bookapi: a CRUD service over Go maps, in memory and backed by a JSON file

Shallow embedding of the two programs of the repository:

* `src/main.go`      (in-memory variant)  -> namespace `Mem`
* `src/src/main.go`  (persistent variant) -> namespace `Persist`

Library boundaries:

* Go `string` is a sequence of bytes (`GoString`); nothing forces it to be UTF-8.
* `encoding/json` is modelled at the level of JSON values (`JSON`): the bytes of
  a file or of a request body are represented by the JSON value they denote, or
  marked as not being JSON at all.  What `encoding/json` does between Go values
  and JSON values is modelled: coercion of strings to valid UTF-8 on output,
  `null` leaving the target untouched, case-insensitive field names, type
  mismatches, a fresh struct per map element, later duplicates winning.
* `go-restful` responses are recorded as the status code and the Go value handed
  to `WriteEntity` / `WriteHeaderAndEntity` / `WriteError`.
* `uuid.New()` consumes sixteen random bytes, which handlers take as an argument.
* A Go `panic` leaving a handler is the `Except.error` outcome.
-/

/-! ## Bytes, Go strings and UTF-8 -/

/-- A byte. -/
abbrev Byte := Fin 256

/-- Go `string`: an arbitrary sequence of bytes. -/
abbrev GoString := List Byte

/-- Conversion to a byte, as Go's `byte(n)` on an unsigned value. -/
def byte (n : Nat) : Byte := ⟨n % 256, Nat.mod_lt n (by decide)⟩

/-- Go `utf8.EncodeRune` on a valid Unicode scalar value. -/
def encodeRune (c : Char) : GoString :=
  let n := c.toNat
  if n < 0x80 then [byte n]
  else if n < 0x800 then [byte (0xC0 + n / 64), byte (0x80 + n % 64)]
  else if n < 0x10000 then
    [byte (0xE0 + n / 4096), byte (0x80 + n / 64 % 64), byte (0x80 + n % 64)]
  else
    [byte (0xF0 + n / 262144), byte (0x80 + n / 4096 % 64), byte (0x80 + n / 64 % 64),
      byte (0x80 + n % 64)]

/-- The UTF-8 encoding of a sequence of Unicode scalar values. -/
def utf8Encode : List Char → GoString
  | [] => []
  | c :: cs => encodeRune c ++ utf8Encode cs

/-- A Go string literal of the source text (Go source is UTF-8). -/
def goLit (s : String) : GoString := utf8Encode s.toList

/-- The rune `utf8.RuneError`, U+FFFD. -/
def RuneError : Char := Char.ofNat 0xFFFD

/-- Continuation byte test: `0x80 <= b <= 0xBF`. -/
def isCont (b : Byte) : Bool := decide (0x80 ≤ b.val ∧ b.val ≤ 0xBF)

/-- Go `utf8.DecodeRune`: the first rune of `s` and its width in bytes.  An
invalid or truncated encoding (a stray continuation byte, an overlong form, a
surrogate, a value above U+10FFFF) yields `(RuneError, 1)`; the empty string
yields `(RuneError, 0)`. -/
def DecodeRune : GoString → Char × Nat
  | [] => (RuneError, 0)
  | b0 :: rest =>
    if b0.val < 0x80 then (Char.ofNat b0.val, 1)
    else if b0.val < 0xC2 then (RuneError, 1)
    else if b0.val < 0xE0 then
      match rest with
      | b1 :: _ =>
        if isCont b1 then (Char.ofNat ((b0.val - 0xC0) * 64 + (b1.val - 0x80)), 2)
        else (RuneError, 1)
      | _ => (RuneError, 1)
    else if b0.val < 0xF0 then
      match rest with
      | b1 :: b2 :: _ =>
        let lo := if b0.val = 0xE0 then 0xA0 else 0x80
        let hi := if b0.val = 0xED then 0x9F else 0xBF
        if lo ≤ b1.val ∧ b1.val ≤ hi ∧ isCont b2 then
          (Char.ofNat ((b0.val - 0xE0) * 4096 + (b1.val - 0x80) * 64 + (b2.val - 0x80)), 3)
        else (RuneError, 1)
      | _ => (RuneError, 1)
    else if b0.val < 0xF5 then
      match rest with
      | b1 :: b2 :: b3 :: _ =>
        let lo := if b0.val = 0xF0 then 0x90 else 0x80
        let hi := if b0.val = 0xF4 then 0x8F else 0xBF
        if lo ≤ b1.val ∧ b1.val ≤ hi ∧ isCont b2 ∧ isCont b3 then
          (Char.ofNat ((b0.val - 0xF0) * 262144 + (b1.val - 0x80) * 4096
            + (b2.val - 0x80) * 64 + (b3.val - 0x80)), 4)
        else (RuneError, 1)
      | _ => (RuneError, 1)
    else (RuneError, 1)

/-- The runes of a Go string as a `for range` loop (and the JSON encoder's
string writer) sees them, with `skip` bytes of an already decoded rune still to
pass over: every byte that does not start a valid encoding becomes U+FFFD. -/
def runesFrom : Nat → GoString → List Char
  | _, [] => []
  | skip + 1, _ :: rest => runesFrom skip rest
  | 0, b :: rest =>
    let r := DecodeRune (b :: rest)
    r.1 :: runesFrom (r.2 - 1) rest

/-- The text a Go string denotes once coerced to valid UTF-8. -/
def runes (s : GoString) : List Char := runesFrom 0 s

/-- A Go string is valid UTF-8 when coercion to valid UTF-8 gives it back. -/
def ValidUTF8 (s : GoString) : Prop := utf8Encode (runes s) = s

instance (s : GoString) : Decidable (ValidUTF8 s) := by
  unfold ValidUTF8; exact inferInstance

/-! ## Go maps keyed by strings -/

/-- Lookup in a list of entries. -/
def lookupEntry {β : Type} (k : GoString) : List (GoString × β) → Option β
  | [] => none
  | (k', v) :: rest => if k = k' then some v else lookupEntry k rest

/-- Insertion into a key-sorted list of entries, replacing an entry with the same key. -/
def insertEntry {β : Type} (k : GoString) (v : β) : List (GoString × β) → List (GoString × β)
  | [] => [(k, v)]
  | (k', v') :: rest =>
    if k < k' then (k, v) :: (k', v') :: rest
    else if k = k' then (k, v) :: rest
    else (k', v') :: insertEntry k v rest

/-- Removal of the entry with key `k`. -/
def eraseEntry {β : Type} (k : GoString) (l : List (GoString × β)) : List (GoString × β) :=
  l.filter (fun e => decide (e.1 ≠ k))

/-- An allocated Go `map[string]β`: a finite map, represented by its entries in
increasing key order (the order in which `encoding/json` writes them). -/
structure Coll (β : Type) where
  entries : List (GoString × β)
  sorted : entries.Pairwise (fun a b => a.1 < b.1)

namespace Coll

/-- The map literal `map[string]β{}`. -/
def empty {β : Type} : Coll β := ⟨[], List.Pairwise.nil⟩

/-- The comma-ok index expression `v, found := m[k]`. -/
def lookup {β : Type} (m : Coll β) (k : GoString) : Option β := lookupEntry k m.entries

/-- The assignment `m[k] = v`. -/
def insert {β : Type} (m : Coll β) (k : GoString) (v : β) : Coll β :=
  ⟨insertEntry k v m.entries, by
    have key : ∀ l : List (GoString × β), l.Pairwise (fun a b => a.1 < b.1) →
        (insertEntry k v l).Pairwise (fun a b => a.1 < b.1) ∧
        ∀ e ∈ insertEntry k v l, e = (k, v) ∨ e ∈ l := by
      intro l
      induction l with
      | nil => intro _; simp [insertEntry]
      | cons hd tl ih =>
        intro hl
        obtain ⟨k', v'⟩ := hd
        rw [List.pairwise_cons] at hl
        obtain ⟨hhd, htl⟩ := hl
        obtain ⟨ih1, ih2⟩ := ih htl
        unfold insertEntry
        by_cases h1 : k < k'
        · simp only [h1, if_true]
          refine ⟨?_, fun e he => ?_⟩
          · refine List.pairwise_cons.2 ⟨fun e he => ?_, List.pairwise_cons.2 ⟨hhd, htl⟩⟩
            rcases List.mem_cons.1 he with rfl | he
            · exact h1
            · exact lt_trans h1 (hhd e he)
          · rcases List.mem_cons.1 he with rfl | he
            · exact Or.inl rfl
            · exact Or.inr he
        · simp only [h1, if_false]
          by_cases h2 : k = k'
          · subst h2
            simp only [if_true]
            refine ⟨List.pairwise_cons.2 ⟨hhd, htl⟩, fun e he => ?_⟩
            rcases List.mem_cons.1 he with rfl | he
            · exact Or.inl rfl
            · exact Or.inr (List.mem_cons_of_mem _ he)
          · simp only [h2, if_false]
            have hlt : k' < k := lt_of_le_of_ne (not_lt.1 h1) (Ne.symm h2)
            refine ⟨List.pairwise_cons.2 ⟨fun e he => ?_, ih1⟩, fun e he => ?_⟩
            · rcases ih2 e he with rfl | he
              · exact hlt
              · exact hhd e he
            · rcases List.mem_cons.1 he with rfl | he
              · exact Or.inr (List.mem_cons_self _ _)
              · rcases ih2 e he with h | h
                · exact Or.inl h
                · exact Or.inr (List.mem_cons_of_mem _ h)
    exact (key m.entries m.sorted).1⟩

/-- The statement `delete(m, k)`. -/
def erase {β : Type} (m : Coll β) (k : GoString) : Coll β :=
  ⟨eraseEntry k m.entries, List.Pairwise.filter _ m.sorted⟩

end Coll

/-- A Go map value: `none` is the nil map, `some m` an allocated map. -/
abbrev GoMap (β : Type) := Option (Coll β)

/-- A Go panic leaving a handler. -/
inductive Panic where
  /-- The `panic(err)` after `json.Unmarshal` in `loadDataFromFile`. -/
  | unmarshal (msg : String)
  /-- The `panic(err)` after `ioutil.WriteFile` in `saveDataToFile`. -/
  | write
  /-- The runtime panic "assignment to entry in nil map". -/
  | nilMapAssignment
  deriving DecidableEq

namespace GoMap

/-- The index expression `v, found := m[k]`; a nil map has no entries. -/
def index {β : Type} (m : GoMap β) (k : GoString) : Option β :=
  match m with
  | none => none
  | some c => c.lookup k

/-- The assignment `m[k] = v`; it panics on a nil map. -/
def assign {β : Type} (m : GoMap β) (k : GoString) (v : β) : Except Panic (GoMap β) :=
  match m with
  | none => .error .nilMapAssignment
  | some c => .ok (some (c.insert k v))

/-- The statement `delete(m, k)`; a no-op on a nil map. -/
def delete {β : Type} (m : GoMap β) (k : GoString) : GoMap β :=
  match m with
  | none => none
  | some c => some (c.erase k)

end GoMap

/-! ## JSON values and `encoding/json` -/

/-- A JSON value.  Strings are sequences of Unicode scalar values: what the
decoder hands out after unquoting, and what the encoder writes. -/
inductive JSON where
  | null
  | bool (b : Bool)
  | number (literal : List Char)
  | string (s : List Char)
  | array (elems : List JSON)
  | object (members : List (List Char × JSON))

/-- Decoding a JSON value into a Go `string` that holds `cur`: a JSON string
replaces it, `null` leaves it, anything else is an `UnmarshalTypeError`. -/
def storeString (cur : GoString) : JSON → Except String GoString
  | .string s => .ok (utf8Encode s)
  | .null => .ok cur
  | _ => .error "json: cannot unmarshal value into Go value of type string"

/-- Case folding of an object key for field matching.  The field names of this
program are plain lower-case ASCII letters without `k` and `s`, for which the
library's folding is ASCII case-insensitivity. -/
def foldName (name : List Char) : List Char := name.map Char.toLower

/-- Decoding the members of a JSON object into a struct of two string fields
with JSON names `tag1` and `tag2`, in textual order: a key that matches a field
(exactly or case-insensitively) stores into it, other keys are skipped. -/
def decodeFields (tag1 tag2 : List Char) :
    List (List Char × JSON) → GoString × GoString → Except String (GoString × GoString)
  | [], cur => .ok cur
  | (name, v) :: rest, cur =>
    if foldName name = foldName tag1 then
      match storeString cur.1 v with
      | .ok s => decodeFields tag1 tag2 rest (s, cur.2)
      | .error e => .error e
    else if foldName name = foldName tag2 then
      match storeString cur.2 v with
      | .ok s => decodeFields tag1 tag2 rest (cur.1, s)
      | .error e => .error e
    else decodeFields tag1 tag2 rest cur

/-- Decoding a JSON value into a struct of two string fields that holds `cur`:
`null` leaves it, an object stores its members, anything else is an
`UnmarshalTypeError`. -/
def decodeStruct (tag1 tag2 : List Char) (cur : GoString × GoString) :
    JSON → Except String (GoString × GoString)
  | .null => .ok cur
  | .object members => decodeFields tag1 tag2 members cur
  | _ => .error "json: cannot unmarshal value into Go value of type main.Book"

/-- Encoding a struct of two string fields: an object with the two members in
field order, each string coerced to valid UTF-8. -/
def encodeStruct (tag1 tag2 : List Char) (v : GoString × GoString) : JSON :=
  .object [(tag1, .string (runes v.1)), (tag2, .string (runes v.2))]

/-- What a request body holds: bytes from which the decoder reads no JSON value
(a syntax error, an empty body), or the JSON value it reads. -/
inductive Body where
  | unreadable
  | json (v : JSON)

/-- A request as the handlers use it: `PathParameter("book-id")` and the body. -/
structure Request where
  bookID : GoString
  body : Body

/-- What a handler hands to the response. -/
inductive Entity (β : Type) where
  /-- No body, as after `WriteHeader`. -/
  | none
  /-- One Book, handed to `WriteEntity` or `WriteHeaderAndEntity`. -/
  | book (b : β)
  /-- The whole map, handed to `WriteEntity`. -/
  | books (m : GoMap β)
  /-- An error message, handed to `WriteError`. -/
  | error (msg : String)

/-- A response: HTTP status code and entity. -/
structure Response (β : Type) where
  status : Nat
  entity : Entity β

/-! ## `github.com/google/uuid` -/

namespace uuid

/-- A UUID: sixteen bytes. -/
abbrev UUID := Fin 16 → Byte

/-- Version 4 UUID from sixteen random bytes, as `uuid.New()` builds it:
`uuid[6] = (uuid[6] & 0x0f) | 0x40`, `uuid[8] = (uuid[8] & 0x3f) | 0x80`.
(`uuid.New()` panics only when the random source cannot be read; here the
bytes are given.) -/
def New (rnd : Fin 16 → Byte) : UUID := fun i =>
  if i = 6 then byte ((rnd 6).val % 16 + 0x40)
  else if i = 8 then byte ((rnd 8).val % 64 + 0x80)
  else rnd i

/-- One lower-case hexadecimal digit. -/
def hexDigit (n : Nat) : Byte := if n < 10 then byte (0x30 + n) else byte (0x57 + n)

/-- The output of `hex.Encode` for the bytes at the given positions. -/
def hexEncode (u : UUID) : List (Fin 16) → GoString
  | [] => []
  | i :: rest => hexDigit ((u i).val / 16) :: hexDigit ((u i).val % 16) :: hexEncode u rest

/-- The hyphen `-`. -/
def dash : Byte := byte 0x2D

/-- The method `UUID.String`: `xxxxxxxx-xxxx-xxxx-xxxx-xxxxxxxxxxxx`. -/
def String (u : UUID) : GoString :=
  hexEncode u [0, 1, 2, 3] ++ dash :: hexEncode u [4, 5] ++ dash :: hexEncode u [6, 7]
    ++ dash :: hexEncode u [8, 9] ++ dash :: hexEncode u [10, 11, 12, 13, 14, 15]

end uuid

/-- The function `generateID` of both programs: `"id" + uuid.New().String()`. -/
def generateID (rnd : Fin 16 → Byte) : GoString :=
  goLit "id" ++ uuid.String (uuid.New rnd)

/-! ## The in-memory variant (`src/main.go`) -/

namespace Mem

/-- The struct `Book` with JSON names `id` and `name`. -/
structure Book where
  ID : GoString
  Name : GoString
  deriving DecidableEq

/-- The call `request.ReadEntity(book)` on `book := new(Book)`: the decoded Book,
or the decoder's error. -/
def ReadEntity (body : Body) : Except String Book :=
  match body with
  | .unreadable => .error "invalid JSON input"
  | .json v =>
    match decodeStruct "id".toList "name".toList ([], []) v with
    | .ok p => .ok ⟨p.1, p.2⟩
    | .error e => .error e

/-- The handler `getItems`.  The state is the package variable `books`, which is
initialised with `map[string]Book{}` and never reassigned, hence never nil. -/
def getItems (_request : Request) (books : Coll Book) : Response Book × Coll Book :=
  (⟨200, .books (some books)⟩, books)

/-- The handler `getItem`. -/
def getItem (request : Request) (books : Coll Book) : Response Book × Coll Book :=
  let itemID := request.bookID
  match books.lookup itemID with
  | some book => (⟨200, .book book⟩, books)
  | none => (⟨404, .error "book not found"⟩, books)

/-- The handler `createItem`; `rnd` are the random bytes `uuid.New()` draws. -/
def createItem (request : Request) (rnd : Fin 16 → Byte) (books : Coll Book) :
    Response Book × Coll Book :=
  match ReadEntity request.body with
  | .ok book =>
    let book : Book := { book with ID := generateID rnd }
    (⟨201, .book book⟩, books.insert book.ID book)
  | .error err => (⟨400, .error err⟩, books)

/-- The handler `updateItem`. -/
def updateItem (request : Request) (books : Coll Book) : Response Book × Coll Book :=
  let itemID := request.bookID
  match books.lookup itemID with
  | none => (⟨404, .error "Book not found"⟩, books)
  | some existingItem =>
    match ReadEntity request.body with
    | .ok updatedItem =>
      let existingItem : Book := { existingItem with Name := updatedItem.Name }
      (⟨200, .book existingItem⟩, books.insert itemID existingItem)
    | .error err => (⟨400, .error err⟩, books)

/-- The handler `deleteItem`. -/
def deleteItem (request : Request) (books : Coll Book) : Response Book × Coll Book :=
  let itemID := request.bookID
  (⟨204, .none⟩, books.erase itemID)

/-- The states of `books` reachable from the initial empty map by handler calls. -/
inductive Reachable : Coll Book → Prop where
  | start : Reachable Coll.empty
  | list (request : Request) {books : Coll Book} :
      Reachable books → Reachable (getItems request books).2
  | get (request : Request) {books : Coll Book} :
      Reachable books → Reachable (getItem request books).2
  | create (request : Request) (rnd : Fin 16 → Byte) {books : Coll Book} :
      Reachable books → Reachable (createItem request rnd books).2
  | update (request : Request) {books : Coll Book} :
      Reachable books → Reachable (updateItem request books).2
  | delete (request : Request) {books : Coll Book} :
      Reachable books → Reachable (deleteItem request books).2

end Mem

/-! ## The persistent variant (`src/src/main.go`) -/

namespace Persist

/-- The struct `Book` with JSON names `id` and `title`. -/
structure Book where
  ID : GoString
  Title : GoString
  deriving DecidableEq

/-- What the bytes of the data file are to `json.Unmarshal`: not JSON at all (a
syntax error, which includes the empty file), or the JSON value they denote. -/
inductive FileContent where
  | notJSON
  | json (v : JSON)

/-- The file system as far as `dataFilePath` goes.  `dataFile = none`: the file
cannot be read (`ioutil.ReadFile` returns an error, as when it is absent).
`writable`: whether `ioutil.WriteFile` succeeds. -/
structure Disk where
  dataFile : Option FileContent
  writable : Bool

/-- The call `request.ReadEntity(book)` on `book := new(Book)`: the decoded Book,
or the decoder's error. -/
def ReadEntity (body : Body) : Except String Book :=
  match body with
  | .unreadable => .error "invalid JSON input"
  | .json v =>
    match decodeStruct "id".toList "title".toList ([], []) v with
    | .ok p => .ok ⟨p.1, p.2⟩
    | .error e => .error e

/-- Decoding one map element: a fresh zero `Book` receives the JSON value. -/
def decodeBook (v : JSON) : Except String Book :=
  match decodeStruct "id".toList "title".toList ([], []) v with
  | .ok p => .ok ⟨p.1, p.2⟩
  | .error e => .error e

/-- Decoding the members of the top-level object into the map, in textual
order: `books[key] = element`, so a later duplicate key overwrites. -/
def decodeMembers : List (List Char × JSON) → Coll Book → Except String (Coll Book)
  | [], books => .ok books
  | (key, v) :: rest, books =>
    match decodeBook v with
    | .ok book => decodeMembers rest (books.insert (utf8Encode key) book)
    | .error e => .error e

/-- The call `json.Unmarshal(data, &books)` on the nil `var books map[string]Book`,
for data that is JSON: `null` leaves the map nil, an object allocates the map and
fills it, any other value is an `UnmarshalTypeError`. -/
def Unmarshal : JSON → Except String (GoMap Book)
  | .null => .ok none
  | .object members =>
    match decodeMembers members Coll.empty with
    | .ok books => .ok (some books)
    | .error e => .error e
  | _ => .error "json: cannot unmarshal value into Go value of type map[string]main.Book"

/-- The JSON value `json.MarshalIndent(books, "", "  ")` writes: `null` for the
nil map, otherwise an object with one member per entry in increasing key order.
It returns no error for a `map[string]Book`. -/
def MarshalIndent (books : GoMap Book) : JSON :=
  match books with
  | none => .null
  | some c =>
    .object (c.entries.map fun e =>
      (runes e.1, encodeStruct "id".toList "title".toList (e.2.ID, e.2.Title)))

/-- The function `loadDataFromFile`. -/
def loadDataFromFile (disk : Disk) : Except Panic (GoMap Book) :=
  match disk.dataFile with
  | none => .ok (some Coll.empty)
  | some .notJSON => .error (.unmarshal "invalid character")
  | some (.json v) =>
    match Unmarshal v with
    | .ok books => .ok books
    | .error e => .error (.unmarshal e)

/-- The function `saveDataToFile`. -/
def saveDataToFile (disk : Disk) (books : GoMap Book) : Except Panic Disk :=
  let data := MarshalIndent books
  if disk.writable then .ok { disk with dataFile := some (.json data) }
  else .error .write

/-- The handler `getBooks`. -/
def getBooks (_request : Request) (disk : Disk) : Except Panic (Response Book × Disk) :=
  match loadDataFromFile disk with
  | .error p => .error p
  | .ok books => .ok (⟨200, .books books⟩, disk)

/-- The handler `getBook`. -/
def getBook (request : Request) (disk : Disk) : Except Panic (Response Book × Disk) :=
  let bookID := request.bookID
  match loadDataFromFile disk with
  | .error p => .error p
  | .ok books =>
    match books.index bookID with
    | some book => .ok (⟨200, .book book⟩, disk)
    | none => .ok (⟨404, .error "Book not found"⟩, disk)

/-- The handler `createBook`; `rnd` are the random bytes `uuid.New()` draws. -/
def createBook (request : Request) (rnd : Fin 16 → Byte) (disk : Disk) :
    Except Panic (Response Book × Disk) :=
  match ReadEntity request.body with
  | .ok book =>
    let book : Book := { book with ID := generateID rnd }
    match loadDataFromFile disk with
    | .error p => .error p
    | .ok books =>
      match books.assign book.ID book with
      | .error p => .error p
      | .ok books =>
        match saveDataToFile disk books with
        | .error p => .error p
        | .ok disk => .ok (⟨201, .book book⟩, disk)
  | .error err => .ok (⟨400, .error err⟩, disk)

/-- The handler `updateBook`. -/
def updateBook (request : Request) (disk : Disk) : Except Panic (Response Book × Disk) :=
  let bookID := request.bookID
  match loadDataFromFile disk with
  | .error p => .error p
  | .ok books =>
    match books.index bookID with
    | none => .ok (⟨404, .error "Book not found"⟩, disk)
    | some existingBook =>
      match ReadEntity request.body with
      | .ok updatedBook =>
        let existingBook : Book := { existingBook with Title := updatedBook.Title }
        match books.assign bookID existingBook with
        | .error p => .error p
        | .ok books =>
          match saveDataToFile disk books with
          | .error p => .error p
          | .ok disk => .ok (⟨200, .book existingBook⟩, disk)
      | .error err => .ok (⟨400, .error err⟩, disk)

/-- The handler `deleteBook`. -/
def deleteBook (request : Request) (disk : Disk) : Except Panic (Response Book × Disk) :=
  let bookID := request.bookID
  match loadDataFromFile disk with
  | .error p => .error p
  | .ok books =>
    match saveDataToFile disk (books.delete bookID) with
    | .error p => .error p
    | .ok disk => .ok (⟨204, .none⟩, disk)

/-- The disks reachable from an absent data file by handler calls that return. -/
inductive Reachable : Disk → Prop where
  | start (writable : Bool) : Reachable ⟨none, writable⟩
  | list (request : Request) {disk disk1 : Disk} {r : Response Book} :
      Reachable disk → getBooks request disk = .ok (r, disk1) → Reachable disk1
  | get (request : Request) {disk disk1 : Disk} {r : Response Book} :
      Reachable disk → getBook request disk = .ok (r, disk1) → Reachable disk1
  | create (request : Request) (rnd : Fin 16 → Byte) {disk disk1 : Disk} {r : Response Book} :
      Reachable disk → createBook request rnd disk = .ok (r, disk1) → Reachable disk1
  | update (request : Request) {disk disk1 : Disk} {r : Response Book} :
      Reachable disk → updateBook request disk = .ok (r, disk1) → Reachable disk1
  | delete (request : Request) {disk disk1 : Disk} {r : Response Book} :
      Reachable disk → deleteBook request disk = .ok (r, disk1) → Reachable disk1

end Persist

/-! ## Validity of the strings of a map, and the store invariant -/

namespace Persist

/-- Both strings of a Book are valid UTF-8. -/
def ValidBook (b : Book) : Prop := ValidUTF8 b.ID ∧ ValidUTF8 b.Title

/-- Every key and every Book of an allocated map is valid UTF-8. -/
def ValidColl (c : Coll Book) : Prop := ∀ e ∈ c.entries, ValidUTF8 e.1 ∧ ValidBook e.2

/-- Every key and every Book of a map value is valid UTF-8 (nothing to check for nil). -/
def ValidMap (m : GoMap Book) : Prop := ∀ c, m = some c → ValidColl c

instance (c : Coll Book) : Decidable (ValidColl c) := by
  unfold ValidColl ValidBook; exact inferInstance

instance (m : GoMap Book) : Decidable (ValidMap m) :=
  match m with
  | none => isTrue (fun _ h => nomatch h)
  | some c =>
    if h : ValidColl c then isTrue (fun _ hc => Option.some.inj hc ▸ h)
    else isFalse (fun hm => h (hm c rfl))

/-- The store invariant: the Book under key `k` has id `k`, and ids are non-empty. -/
def Inv (m : GoMap Book) : Prop := ∀ k b, m.index k = some b → b.ID = k ∧ b.ID ≠ []

/-- The disk once `saveDataToFile books` has returned. -/
def written (books : GoMap Book) : Disk := ⟨some (.json (MarshalIndent books)), true⟩

/-- The collections the program holds: the map `loadDataFromFile` returns, and
the maps handed to `saveDataToFile` at its three call sites, in `createBook`
(`books[book.ID] = *book`), `updateBook` (`books[bookID] = existingBook`) and
`deleteBook` (`delete(books, bookID)`). -/
inductive Held : GoMap Book → Prop where
  | load (disk : Disk) {books : GoMap Book} :
      loadDataFromFile disk = .ok books → Held books
  | create (request : Request) (rnd : Fin 16 → Byte) (disk : Disk)
      {book : Book} {books saved : GoMap Book} :
      ReadEntity request.body = .ok book → loadDataFromFile disk = .ok books →
      books.assign (generateID rnd) { book with ID := generateID rnd } = .ok saved →
      Held saved
  | update (request : Request) (disk : Disk)
      {existingBook updatedBook : Book} {books saved : GoMap Book} :
      loadDataFromFile disk = .ok books → books.index request.bookID = some existingBook →
      ReadEntity request.body = .ok updatedBook →
      books.assign request.bookID { existingBook with Title := updatedBook.Title } = .ok saved →
      Held saved
  | delete (request : Request) (disk : Disk) {books : GoMap Book} :
      loadDataFromFile disk = .ok books → Held (books.delete request.bookID)

end Persist

namespace Mem

/-- The store invariant: the Book under key `k` has id `k`, and ids are non-empty. -/
def Inv (books : Coll Book) : Prop := ∀ k b, books.lookup k = some b → b.ID = k ∧ b.ID ≠ []

end Mem

/-! ## Concrete requests and disks -/

/-- The body `{"title":"Dune"}`. -/
def duneBody : Body := .json (.object [("title".toList, .string "Dune".toList)])

/-- The body `{"title":"Dune Messiah"}`. -/
def messiahBody : Body := .json (.object [("title".toList, .string "Dune Messiah".toList)])

/-- The in-memory body `{"name":"Dune"}`. -/
def duneNameBody : Body := .json (.object [("name".toList, .string "Dune".toList)])

/-- The in-memory body `{"name":"Dune Messiah"}`. -/
def messiahNameBody : Body := .json (.object [("name".toList, .string "Dune Messiah".toList)])

/-- Sixteen bytes `0xFF` as the random source. -/
def onesRnd : Fin 16 → Byte := fun _ => byte 0xFF

/-- Sixteen zero bytes as the random source. -/
def zeroRnd : Fin 16 → Byte := fun _ => 0

/-- The id generated from `zeroRnd`: `id00000000-0000-4000-8000-000000000000`. -/
def zeroID : GoString := generateID zeroRnd

/-- A map with the one Book "Dune" under `zeroID`. -/
def duneBooks : Coll Persist.Book := Coll.empty.insert zeroID ⟨zeroID, goLit "Dune"⟩

/-- An in-memory map with the one Book "Dune" under `zeroID`. -/
def duneItems : Coll Mem.Book := Coll.empty.insert zeroID ⟨zeroID, goLit "Dune"⟩

/-- A disk that holds `duneBooks` and accepts writes. -/
def duneDisk : Persist.Disk := Persist.written (some duneBooks)

/-- A disk that holds `duneBooks` and rejects writes. -/
def readOnlyDisk : Persist.Disk := ⟨some (.json (Persist.MarshalIndent (some duneBooks))), false⟩

/-- A disk whose data file is not JSON. -/
def corruptDisk : Persist.Disk := ⟨some .notJSON, true⟩

/-- A disk whose data file holds the JSON literal `null`. -/
def nullDisk : Persist.Disk := ⟨some (.json .null), true⟩

/-! ## UTF-8: encoding followed by decoding -/

theorem char_valid (c : Char) : c.toNat < 0xD800 ∨ (0xDFFF < c.toNat ∧ c.toNat < 0x110000) := by
  have h := c.valid
  simpa [Char.toNat, UInt32.isValidChar, Nat.isValidChar] using h

theorem runesFrom_encodeRune (c : Char) (rest : GoString) :
    runesFrom 0 (encodeRune c ++ rest) = c :: runesFrom 0 rest := by
  have hv := char_valid c
  have hc : Char.ofNat c.toNat = c := Char.ofNat_toNat c
  generalize hn : c.toNat = n at hv hc
  unfold encodeRune
  simp only [hn]
  by_cases h1 : n < 0x80
  · simp only [h1, if_true, List.cons_append, List.nil_append, runesFrom, DecodeRune, byte]
    have e : n % 256 = n := by omega
    simp [e, h1, hc]
  · by_cases h2 : n < 0x800
    · simp only [h1, h2, if_true, if_false, List.cons_append, List.nil_append, runesFrom,
        DecodeRune, byte, isCont]
      have e0 : (0xC0 + n / 64) % 256 = 0xC0 + n / 64 := by omega
      have e1 : (0x80 + n % 64) % 256 = 0x80 + n % 64 := by omega
      simp only [e0, e1]
      have c1 : ¬ (0xC0 + n / 64 < 0x80) := by omega
      have c2 : ¬ (0xC0 + n / 64 < 0xC2) := by omega
      have c3 : 0xC0 + n / 64 < 0xE0 := by omega
      have c4 : (0x80 ≤ 0x80 + n % 64 ∧ 0x80 + n % 64 ≤ 0xBF) := by omega
      have e : (0xC0 + n / 64 - 0xC0) * 64 + (0x80 + n % 64 - 0x80) = n := by omega
      simp only [c1, c2, c3, c4, e, hc, if_true, if_false, decide_True]
      rfl
    · by_cases h3 : n < 0x10000
      · simp only [h1, h2, h3, if_true, if_false, List.cons_append, List.nil_append, runesFrom,
          DecodeRune, byte, isCont]
        have e0 : (0xE0 + n / 4096) % 256 = 0xE0 + n / 4096 := by omega
        have e1 : (0x80 + n / 64 % 64) % 256 = 0x80 + n / 64 % 64 := by omega
        have e2 : (0x80 + n % 64) % 256 = 0x80 + n % 64 := by omega
        simp only [e0, e1, e2]
        have c1 : ¬ (0xE0 + n / 4096 < 0x80) := by omega
        have c2 : ¬ (0xE0 + n / 4096 < 0xC2) := by omega
        have c3 : ¬ (0xE0 + n / 4096 < 0xE0) := by omega
        have c4 : 0xE0 + n / 4096 < 0xF0 := by omega
        have c5 : (if 0xE0 + n / 4096 = 0xE0 then 0xA0 else 0x80) ≤ 0x80 + n / 64 % 64 := by
          split <;> omega
        have c6 : 0x80 + n / 64 % 64 ≤ (if 0xE0 + n / 4096 = 0xED then 0x9F else 0xBF) := by
          split <;> omega
        have c7 : (0x80 ≤ 0x80 + n % 64 ∧ 0x80 + n % 64 ≤ 0xBF) := by omega
        have e : (0xE0 + n / 4096 - 0xE0) * 4096 + (0x80 + n / 64 % 64 - 0x80) * 64
            + (0x80 + n % 64 - 0x80) = n := by omega
        simp only [c1, c2, c3, c4, c5, c6, c7, e, hc, if_true, if_false, decide_True, and_self]
        rfl
      · simp only [h1, h2, h3, if_true, if_false, List.cons_append, List.nil_append, runesFrom,
          DecodeRune, byte, isCont]
        have e0 : (0xF0 + n / 262144) % 256 = 0xF0 + n / 262144 := by omega
        have e1 : (0x80 + n / 4096 % 64) % 256 = 0x80 + n / 4096 % 64 := by omega
        have e2 : (0x80 + n / 64 % 64) % 256 = 0x80 + n / 64 % 64 := by omega
        have e3 : (0x80 + n % 64) % 256 = 0x80 + n % 64 := by omega
        simp only [e0, e1, e2, e3]
        have c1 : ¬ (0xF0 + n / 262144 < 0x80) := by omega
        have c2 : ¬ (0xF0 + n / 262144 < 0xC2) := by omega
        have c3 : ¬ (0xF0 + n / 262144 < 0xE0) := by omega
        have c4 : ¬ (0xF0 + n / 262144 < 0xF0) := by omega
        have c4' : 0xF0 + n / 262144 < 0xF5 := by omega
        have c5 : (if 0xF0 + n / 262144 = 0xF0 then 0x90 else 0x80) ≤ 0x80 + n / 4096 % 64 := by
          split <;> omega
        have c6 : 0x80 + n / 4096 % 64 ≤ (if 0xF0 + n / 262144 = 0xF4 then 0x8F else 0xBF) := by
          split <;> omega
        have c7 : (0x80 ≤ 0x80 + n / 64 % 64 ∧ 0x80 + n / 64 % 64 ≤ 0xBF) := by omega
        have c8 : (0x80 ≤ 0x80 + n % 64 ∧ 0x80 + n % 64 ≤ 0xBF) := by omega
        have e : (0xF0 + n / 262144 - 0xF0) * 262144 + (0x80 + n / 4096 % 64 - 0x80) * 4096
            + (0x80 + n / 64 % 64 - 0x80) * 64 + (0x80 + n % 64 - 0x80) = n := by omega
        simp only [c1, c2, c3, c4, c4', c5, c6, c7, c8, e, hc, if_true, if_false, decide_True,
          and_self]
        rfl

theorem runes_utf8Encode (cs : List Char) : runes (utf8Encode cs) = cs := by
  induction cs with
  | nil => rfl
  | cons c cs ih =>
    show runesFrom 0 (encodeRune c ++ utf8Encode cs) = c :: cs
    rw [runesFrom_encodeRune]
    exact congrArg _ ih

theorem validUTF8_utf8Encode (cs : List Char) : ValidUTF8 (utf8Encode cs) := by
  unfold ValidUTF8
  rw [runes_utf8Encode]

theorem validUTF8_nil : ValidUTF8 [] := rfl

theorem runesFrom_ascii (b : Byte) (rest : GoString) (h : b.val < 0x80) :
    runesFrom 0 (b :: rest) = Char.ofNat b.val :: runesFrom 0 rest := by
  simp [runesFrom, DecodeRune, h]

theorem toNat_ofNat_ascii (n : Nat) (h : n < 0x80) : (Char.ofNat n).toNat = n := by
  have hv : n.isValidChar := Or.inl (by omega)
  unfold Char.ofNat
  rw [dif_pos hv]
  simp [Char.ofNatAux, Char.toNat, UInt32.toNat]

theorem encodeRune_ascii (b : Byte) (h : b.val < 0x80) : encodeRune (Char.ofNat b.val) = [b] := by
  unfold encodeRune
  simp only [toNat_ofNat_ascii b.val h, h, if_true, byte]
  have e : b.val % 256 = b.val := by omega
  simp only [e]

/-- A string of ASCII bytes is valid UTF-8. -/
theorem validUTF8_of_ascii (s : GoString) (h : ∀ b ∈ s, b.val < 0x80) : ValidUTF8 s := by
  induction s with
  | nil => rfl
  | cons b rest ih =>
    have hb := h b (List.mem_cons_self _ _)
    have ih1 := ih (fun x hx => h x (List.mem_cons_of_mem _ hx))
    unfold ValidUTF8 runes at *
    rw [runesFrom_ascii b rest hb]
    show encodeRune (Char.ofNat b.val) ++ utf8Encode (runesFrom 0 rest) = b :: rest
    rw [encodeRune_ascii b hb, ih1]
    rfl

/-! ## Generated identifiers -/

theorem hexDigit_ascii (n : Nat) (h : n < 16) : (uuid.hexDigit n).val < 0x80 := by
  unfold uuid.hexDigit byte
  split <;> simp only <;> omega

theorem hexEncode_ascii (u : uuid.UUID) (is : List (Fin 16)) :
    ∀ b ∈ uuid.hexEncode u is, b.val < 0x80 := by
  induction is with
  | nil => intro b hb; cases hb
  | cons i rest ih =>
    intro b hb
    unfold uuid.hexEncode at hb
    rcases List.mem_cons.1 hb with rfl | hb
    · exact hexDigit_ascii _ (by have := (u i).isLt; omega)
    · rcases List.mem_cons.1 hb with rfl | hb
      · exact hexDigit_ascii _ (by omega)
      · exact ih b hb

theorem generateID_ascii (rnd : Fin 16 → Byte) : ∀ b ∈ generateID rnd, b.val < 0x80 := by
  intro b hb
  have hd : uuid.dash.val < 0x80 := by decide
  have hlit : goLit "id" = [byte 0x69, byte 0x64] := by decide
  unfold generateID uuid.String at hb
  rw [hlit] at hb
  simp only [List.mem_append, List.mem_cons, List.mem_nil_iff, or_false, or_assoc] at hb
  rcases hb with h | h | h | h | h | h | h | h | h | h | h
  · rw [h]; decide
  · rw [h]; decide
  · exact hexEncode_ascii _ _ b h
  · exact h ▸ hd
  · exact hexEncode_ascii _ _ b h
  · exact h ▸ hd
  · exact hexEncode_ascii _ _ b h
  · exact h ▸ hd
  · exact hexEncode_ascii _ _ b h
  · exact h ▸ hd
  · exact hexEncode_ascii _ _ b h

theorem generateID_valid (rnd : Fin 16 → Byte) : ValidUTF8 (generateID rnd) :=
  validUTF8_of_ascii _ (generateID_ascii rnd)

theorem generateID_ne_nil (rnd : Fin 16 → Byte) : generateID rnd ≠ [] := by
  have h : goLit "id" = [byte 0x69, byte 0x64] := by decide
  unfold generateID
  rw [h]
  simp

/-! ## Entries of a map -/

theorem Coll.ext {β : Type} {a b : Coll β} (h : a.entries = b.entries) : a = b := by
  cases a; cases b; cases h; rfl

theorem lookupEntry_insertEntry_self {β : Type} (k : GoString) (v : β)
    (l : List (GoString × β)) : lookupEntry k (insertEntry k v l) = some v := by
  induction l with
  | nil => simp [insertEntry, lookupEntry]
  | cons hd tl ih =>
    obtain ⟨k', v'⟩ := hd
    unfold insertEntry
    by_cases h1 : k < k'
    · simp [h1, lookupEntry]
    · by_cases h2 : k = k'
      · simp [h1, h2, lookupEntry]
      · simp [h1, h2, lookupEntry, ih]

theorem lookupEntry_insertEntry_ne {β : Type} (j k : GoString) (v : β)
    (l : List (GoString × β)) (hjk : j ≠ k) :
    lookupEntry j (insertEntry k v l) = lookupEntry j l := by
  induction l with
  | nil => simp [insertEntry, lookupEntry, hjk]
  | cons hd tl ih =>
    obtain ⟨k', v'⟩ := hd
    unfold insertEntry
    by_cases h1 : k < k'
    · simp [h1, lookupEntry, hjk]
    · by_cases h2 : k = k'
      · subst h2
        simp [h1, lookupEntry, hjk]
      · simp [h1, h2, lookupEntry, ih]

theorem eraseEntry_cons {β : Type} (k k' : GoString) (v' : β) (l : List (GoString × β)) :
    eraseEntry k ((k', v') :: l)
      = if k' = k then eraseEntry k l else (k', v') :: eraseEntry k l := by
  unfold eraseEntry
  by_cases h : k' = k <;> simp [List.filter_cons, h]

theorem lookupEntry_eraseEntry_self {β : Type} (k : GoString) (l : List (GoString × β)) :
    lookupEntry k (eraseEntry k l) = none := by
  induction l with
  | nil => rfl
  | cons hd tl ih =>
    obtain ⟨k', v'⟩ := hd
    rw [eraseEntry_cons]
    by_cases h : k' = k
    · simp only [h, if_true, ih]
    · have h' : ¬ k = k' := fun e => h e.symm
      simp only [h, if_false, lookupEntry, h', ih]

theorem lookupEntry_eraseEntry_ne {β : Type} (j k : GoString) (l : List (GoString × β))
    (hjk : j ≠ k) : lookupEntry j (eraseEntry k l) = lookupEntry j l := by
  induction l with
  | nil => rfl
  | cons hd tl ih =>
    obtain ⟨k', v'⟩ := hd
    rw [eraseEntry_cons]
    by_cases h : k' = k
    · subst h
      simp only [if_true, lookupEntry, hjk, if_false, ih]
    · simp only [h, if_false, lookupEntry, ih]

theorem eraseEntry_eraseEntry {β : Type} (k : GoString) (l : List (GoString × β)) :
    eraseEntry k (eraseEntry k l) = eraseEntry k l := by
  unfold eraseEntry
  simp [List.filter_filter]

theorem eraseEntry_of_lookupEntry_none {β : Type} (k : GoString) (l : List (GoString × β))
    (h : lookupEntry k l = none) : eraseEntry k l = l := by
  induction l with
  | nil => rfl
  | cons hd tl ih =>
    obtain ⟨k', v'⟩ := hd
    unfold lookupEntry at h
    by_cases h1 : k = k'
    · simp [h1] at h
    · simp only [h1, if_false] at h
      have h2 : ¬ k' = k := fun e => h1 e.symm
      rw [eraseEntry_cons]
      simp only [h2, if_false, ih h]

theorem mem_insertEntry {β : Type} (k : GoString) (v : β) (l : List (GoString × β))
    (e : GoString × β) (he : e ∈ insertEntry k v l) : e = (k, v) ∨ e ∈ l := by
  induction l with
  | nil => simpa [insertEntry] using he
  | cons hd tl ih =>
    obtain ⟨k', v'⟩ := hd
    unfold insertEntry at he
    by_cases h1 : k < k'
    · simp only [h1, if_true] at he
      rcases List.mem_cons.1 he with h | h
      · exact Or.inl h
      · exact Or.inr h
    · by_cases h2 : k = k'
      · subst h2
        simp only [h1, if_true, if_false] at he
        rcases List.mem_cons.1 he with h | h
        · exact Or.inl h
        · exact Or.inr (List.mem_cons_of_mem _ h)
      · simp only [h1, h2, if_false] at he
        rcases List.mem_cons.1 he with h | h
        · exact Or.inr (h ▸ List.mem_cons_self _ _)
        · rcases ih h with h | h
          · exact Or.inl h
          · exact Or.inr (List.mem_cons_of_mem _ h)

theorem mem_of_lookupEntry {β : Type} (k : GoString) (v : β) (l : List (GoString × β))
    (h : lookupEntry k l = some v) : (k, v) ∈ l := by
  induction l with
  | nil => cases h
  | cons hd tl ih =>
    obtain ⟨k', v'⟩ := hd
    unfold lookupEntry at h
    by_cases h1 : k = k'
    · simp only [h1, if_true, Option.some.injEq] at h
      subst h1; subst h
      exact List.mem_cons_self _ _
    · simp only [h1, if_false] at h
      exact List.mem_cons_of_mem _ (ih h)

theorem mem_of_mem_eraseEntry {β : Type} (k : GoString) (l : List (GoString × β))
    (e : GoString × β) (he : e ∈ eraseEntry k l) : e ∈ l :=
  (List.mem_filter.1 he).1

/-- Inserting a key above all present keys appends the entry. -/
theorem insertEntry_of_lt {β : Type} (k : GoString) (v : β) (l : List (GoString × β))
    (h : ∀ e ∈ l, e.1 < k) : insertEntry k v l = l ++ [(k, v)] := by
  induction l with
  | nil => rfl
  | cons hd tl ih =>
    obtain ⟨k', v'⟩ := hd
    have hk : k' < k := h (k', v') (List.mem_cons_self _ _)
    have h1 : ¬ k < k' := not_lt.2 (le_of_lt hk)
    have h2 : ¬ k = k' := fun e => (ne_of_lt hk) e.symm
    unfold insertEntry
    simp only [h1, h2, if_false, List.cons_append]
    rw [ih (fun e he => h e (List.mem_cons_of_mem _ he))]

/-! ## What the decoder produces is valid UTF-8 -/

theorem storeString_valid (cur : GoString) (v : JSON) (s : GoString) (hcur : ValidUTF8 cur)
    (h : storeString cur v = .ok s) : ValidUTF8 s := by
  cases v <;> simp only [storeString, Except.ok.injEq, reduceCtorEq] at h
  · exact h ▸ hcur
  · exact h ▸ validUTF8_utf8Encode _

theorem decodeFields_valid (tag1 tag2 : List Char) (members : List (List Char × JSON)) :
    ∀ (cur r : GoString × GoString), ValidUTF8 cur.1 → ValidUTF8 cur.2 →
      decodeFields tag1 tag2 members cur = .ok r → ValidUTF8 r.1 ∧ ValidUTF8 r.2 := by
  induction members with
  | nil =>
    intro cur r h1 h2 h
    simp only [decodeFields, Except.ok.injEq] at h
    exact h ▸ ⟨h1, h2⟩
  | cons hd tl ih =>
    intro cur r h1 h2 h
    obtain ⟨name, v⟩ := hd
    unfold decodeFields at h
    split at h
    · cases hs : storeString cur.1 v with
      | error e => simp [hs] at h
      | ok s =>
        simp only [hs] at h
        exact ih (s, cur.2) r (storeString_valid _ _ _ h1 hs) h2 h
    · split at h
      · cases hs : storeString cur.2 v with
        | error e => simp [hs] at h
        | ok s =>
          simp only [hs] at h
          exact ih (cur.1, s) r h1 (storeString_valid _ _ _ h2 hs) h
      · exact ih cur r h1 h2 h

theorem decodeStruct_valid (tag1 tag2 : List Char) (v : JSON) (r : GoString × GoString)
    (h : decodeStruct tag1 tag2 ([], []) v = .ok r) : ValidUTF8 r.1 ∧ ValidUTF8 r.2 := by
  cases v <;> simp only [decodeStruct, Except.ok.injEq, reduceCtorEq] at h
  · exact h ▸ ⟨validUTF8_nil, validUTF8_nil⟩
  · exact decodeFields_valid _ _ _ _ _ validUTF8_nil validUTF8_nil h

namespace Persist

theorem ReadEntity_valid (body : Body) (b : Book) (h : ReadEntity body = .ok b) :
    ValidBook b := by
  cases body with
  | unreadable => simp [ReadEntity] at h
  | json v =>
    have h' : (match decodeStruct "id".toList "title".toList ([], []) v with
        | .ok p => Except.ok (⟨p.1, p.2⟩ : Book)
        | .error e => Except.error e) = .ok b := h
    split at h'
    · rename_i p hd
      cases h'
      exact decodeStruct_valid _ _ _ _ hd
    · cases h'

theorem decodeBook_valid (v : JSON) (b : Book) (h : decodeBook v = .ok b) : ValidBook b := by
  unfold decodeBook at h
  split at h
  · rename_i p hd
    cases h
    exact decodeStruct_valid _ _ _ _ hd
  · cases h

theorem validColl_empty : ValidColl Coll.empty := by
  intro e he
  cases he

theorem validColl_insert (c : Coll Book) (k : GoString) (b : Book) (hc : ValidColl c)
    (hk : ValidUTF8 k) (hb : ValidBook b) : ValidColl (c.insert k b) := by
  intro e he
  rcases mem_insertEntry k b c.entries e he with h | h
  · subst h
    exact ⟨hk, hb⟩
  · exact hc e h

theorem validColl_erase (c : Coll Book) (k : GoString) (hc : ValidColl c) :
    ValidColl (c.erase k) :=
  fun e he => hc e (mem_of_mem_eraseEntry k c.entries e he)

theorem validColl_lookup (c : Coll Book) (k : GoString) (b : Book) (hc : ValidColl c)
    (h : c.lookup k = some b) : ValidUTF8 k ∧ ValidBook b :=
  hc (k, b) (mem_of_lookupEntry k b c.entries h)

theorem decodeMembers_valid (members : List (List Char × JSON)) :
    ∀ (acc r : Coll Book), ValidColl acc → decodeMembers members acc = .ok r → ValidColl r := by
  induction members with
  | nil =>
    intro acc r hacc h
    simp only [decodeMembers, Except.ok.injEq] at h
    exact h ▸ hacc
  | cons hd tl ih =>
    intro acc r hacc h
    obtain ⟨key, v⟩ := hd
    unfold decodeMembers at h
    cases hb : decodeBook v with
    | error e => simp [hb] at h
    | ok book =>
      simp only [hb] at h
      exact ih _ r (validColl_insert acc _ book hacc (validUTF8_utf8Encode key)
        (decodeBook_valid v book hb)) h

theorem Unmarshal_valid (v : JSON) (m : GoMap Book) (h : Unmarshal v = .ok m) : ValidMap m := by
  cases v <;> simp only [Unmarshal, Except.ok.injEq, reduceCtorEq] at h
  · subst h
    intro c hc
    cases hc
  · rename_i members
    cases hd : decodeMembers members Coll.empty with
    | error e => simp [hd] at h
    | ok books =>
      simp only [hd, Except.ok.injEq] at h
      subst h
      intro c hc
      cases hc
      exact decodeMembers_valid members _ _ validColl_empty hd

/-- Whatever `loadDataFromFile` returns holds valid UTF-8 only. -/
theorem loadDataFromFile_valid (disk : Disk) (m : GoMap Book)
    (h : loadDataFromFile disk = .ok m) : ValidMap m := by
  unfold loadDataFromFile at h
  cases hf : disk.dataFile with
  | none =>
    simp only [hf, Except.ok.injEq] at h
    subst h
    intro c hc
    cases hc
    exact validColl_empty
  | some content =>
    cases content with
    | notJSON => simp [hf] at h
    | json v =>
      simp only [hf] at h
      cases hu : Unmarshal v with
      | error e => simp [hu] at h
      | ok books =>
        simp only [hu, Except.ok.injEq] at h
        subst h
        exact Unmarshal_valid v books hu

end Persist

/-! ## Writing the file and reading it back -/

namespace Persist

theorem decodeBook_encodeStruct (b : Book) (hb : ValidBook b) :
    decodeBook (encodeStruct "id".toList "title".toList (b.ID, b.Title)) = .ok b := by
  obtain ⟨h1, h2⟩ := hb
  unfold ValidUTF8 at h1 h2
  have hne : ¬ foldName "title".toList = foldName "id".toList := by decide
  simp only [decodeBook, encodeStruct, decodeStruct, decodeFields, storeString, hne, if_true,
    if_false, h1, h2]

theorem decodeMembers_entries (l : List (GoString × Book)) :
    ∀ acc : Coll Book, (∀ e ∈ l, ValidUTF8 e.1 ∧ ValidBook e.2) →
      l.Pairwise (fun a b => a.1 < b.1) → (∀ a ∈ acc.entries, ∀ e ∈ l, a.1 < e.1) →
      ∃ r, decodeMembers (l.map fun e =>
          (runes e.1, encodeStruct "id".toList "title".toList (e.2.ID, e.2.Title))) acc = .ok r
        ∧ r.entries = acc.entries ++ l := by
  induction l with
  | nil =>
    intro acc _ _ _
    exact ⟨acc, rfl, by simp⟩
  | cons hd tl ih =>
    intro acc hv hs hlt
    obtain ⟨k, b⟩ := hd
    obtain ⟨hk, hb⟩ := hv (k, b) (List.mem_cons_self _ _)
    rw [List.pairwise_cons] at hs
    obtain ⟨hhd, htl⟩ := hs
    have hins : (acc.insert k b).entries = acc.entries ++ [(k, b)] :=
      insertEntry_of_lt k b acc.entries (fun a ha => hlt a ha (k, b) (List.mem_cons_self _ _))
    have hlt' : ∀ a ∈ (acc.insert k b).entries, ∀ e ∈ tl, a.1 < e.1 := by
      intro a ha e he
      rw [hins] at ha
      rcases List.mem_append.1 ha with h | h
      · exact hlt a h e (List.mem_cons_of_mem _ he)
      · rw [List.mem_singleton.1 h]
        exact hhd e he
    obtain ⟨r, hr, hre⟩ := ih (acc.insert k b)
      (fun e he => hv e (List.mem_cons_of_mem _ he)) htl hlt'
    refine ⟨r, ?_, ?_⟩
    · unfold ValidUTF8 at hk
      simp only [List.map_cons, decodeMembers, decodeBook_encodeStruct b hb, hk]
      exact hr
    · rw [hre, hins, List.append_assoc]
      rfl

/-- Decoding what was encoded gives the map back when its strings are valid UTF-8. -/
theorem Unmarshal_MarshalIndent (m : GoMap Book) (hm : ValidMap m) :
    Unmarshal (MarshalIndent m) = .ok m := by
  cases m with
  | none => rfl
  | some c =>
    obtain ⟨r, hr, hre⟩ := decodeMembers_entries c.entries Coll.empty (hm c rfl) c.sorted
      (fun a ha => by cases ha)
    have hrc : r = c := Coll.ext (by rw [hre]; rfl)
    subst hrc
    simp only [MarshalIndent, Unmarshal, hr]

/-- On a writable disk `saveDataToFile` returns, and `loadDataFromFile` then
returns the saved map when its strings are valid UTF-8. -/
theorem load_save (disk : Disk) (m : GoMap Book) (hw : disk.writable = true) (hm : ValidMap m) :
    saveDataToFile disk m = .ok ⟨some (.json (MarshalIndent m)), true⟩ ∧
    loadDataFromFile ⟨some (.json (MarshalIndent m)), true⟩ = .ok m := by
  constructor
  · unfold saveDataToFile
    simp only [hw, if_true]
  · simp only [loadDataFromFile, Unmarshal_MarshalIndent m hm]

end Persist

/-! ## One handler call of the persistent variant -/

namespace Persist

theorem saveDataToFile_eq (disk : Disk) (m : GoMap Book) :
    saveDataToFile disk m = if disk.writable = true then .ok (written m) else .error .write := by
  unfold saveDataToFile written
  cases hw : disk.writable <;> simp

theorem load_written (m : GoMap Book) (hm : ValidMap m) : loadDataFromFile (written m) = .ok m :=
  (load_save ⟨none, true⟩ m rfl hm).2

theorem validMap_assign (c : Coll Book) (k : GoString) (b : Book) (hc : ValidMap (some c))
    (hk : ValidUTF8 k) (hb : ValidBook b) : ValidMap (some (c.insert k b)) := by
  intro c' hc'
  cases hc'
  exact validColl_insert c k b (hc c rfl) hk hb

theorem validMap_delete (m : GoMap Book) (k : GoString) (hm : ValidMap m) :
    ValidMap (m.delete k) := by
  cases m with
  | none => intro c hc; cases hc
  | some c =>
    intro c' hc'
    cases hc'
    exact validColl_erase c k (hm c rfl)

theorem validMap_index (m : GoMap Book) (k : GoString) (b : Book) (hm : ValidMap m)
    (h : m.index k = some b) : ValidUTF8 k ∧ ValidBook b := by
  cases m with
  | none => cases h
  | some c => exact validColl_lookup c k b (hm c rfl) h

/-- The outcome of `createBook` on a parsable body, in terms of the loaded map. -/
theorem createBook_eq (request : Request) (rnd : Fin 16 → Byte) (disk : Disk) (b : Book)
    (books : GoMap Book) (hread : ReadEntity request.body = .ok b)
    (hload : loadDataFromFile disk = .ok books) :
    createBook request rnd disk =
      match books with
      | none => .error .nilMapAssignment
      | some c =>
        if disk.writable = true then
          .ok (⟨201, .book ⟨generateID rnd, b.Title⟩⟩,
            written (some (c.insert (generateID rnd) ⟨generateID rnd, b.Title⟩)))
        else .error .write := by
  unfold createBook
  simp only [hread, hload]
  cases books with
  | none => rfl
  | some c =>
    simp only [GoMap.assign, saveDataToFile_eq]
    cases hw : disk.writable <;> simp

/-- The outcome of `createBook` on a body that does not parse. -/
theorem createBook_bad (request : Request) (rnd : Fin 16 → Byte) (disk : Disk) (e : String)
    (hread : ReadEntity request.body = .error e) :
    createBook request rnd disk = .ok (⟨400, .error e⟩, disk) := by
  unfold createBook
  simp only [hread]

/-- The outcome of `updateBook` on an id the loaded map does not hold. -/
theorem updateBook_absent (request : Request) (disk : Disk) (books : GoMap Book)
    (hload : loadDataFromFile disk = .ok books) (habs : books.index request.bookID = none) :
    updateBook request disk = .ok (⟨404, .error "Book not found"⟩, disk) := by
  unfold updateBook
  simp only [hload, habs]

/-- The outcome of `updateBook` on a present id and a body that does not parse. -/
theorem updateBook_bad (request : Request) (disk : Disk) (books : GoMap Book) (existing : Book)
    (e : String) (hload : loadDataFromFile disk = .ok books)
    (hfound : books.index request.bookID = some existing)
    (hread : ReadEntity request.body = .error e) :
    updateBook request disk = .ok (⟨400, .error e⟩, disk) := by
  unfold updateBook
  simp only [hload, hfound, hread]

/-- The outcome of `updateBook` on a present id and a parsable body. -/
theorem updateBook_eq (request : Request) (disk : Disk) (c : Coll Book)
    (existing updated : Book) (hload : loadDataFromFile disk = .ok (some c))
    (hfound : c.lookup request.bookID = some existing)
    (hread : ReadEntity request.body = .ok updated) :
    updateBook request disk =
      if disk.writable = true then
        .ok (⟨200, .book ⟨existing.ID, updated.Title⟩⟩,
          written (some (c.insert request.bookID ⟨existing.ID, updated.Title⟩)))
      else .error .write := by
  unfold updateBook
  have hidx : GoMap.index (some c) request.bookID = some existing := hfound
  simp only [hload, hidx, hread, GoMap.assign, saveDataToFile_eq]
  cases hw : disk.writable <;> simp

/-- The outcome of `deleteBook`, in terms of the loaded map. -/
theorem deleteBook_eq (request : Request) (disk : Disk) (books : GoMap Book)
    (hload : loadDataFromFile disk = .ok books) :
    deleteBook request disk =
      if disk.writable = true then .ok (⟨204, .none⟩, written (books.delete request.bookID))
      else .error .write := by
  unfold deleteBook
  simp only [hload, saveDataToFile_eq]
  cases hw : disk.writable <;> simp

/-- The outcome of `getBook`, in terms of the loaded map. -/
theorem getBook_eq (request : Request) (disk : Disk) (books : GoMap Book)
    (hload : loadDataFromFile disk = .ok books) :
    getBook request disk =
      match books.index request.bookID with
      | some book => .ok (⟨200, .book book⟩, disk)
      | none => .ok (⟨404, .error "Book not found"⟩, disk) := by
  unfold getBook
  simp only [hload]

/-- The outcome of `getBooks`, in terms of the loaded map. -/
theorem getBooks_eq (request : Request) (disk : Disk) (books : GoMap Book)
    (hload : loadDataFromFile disk = .ok books) :
    getBooks request disk = .ok (⟨200, .books books⟩, disk) := by
  unfold getBooks
  simp only [hload]

/-- A panic of `loadDataFromFile` is the one after `json.Unmarshal`. -/
theorem loadDataFromFile_abort (disk : Disk) (p : Panic)
    (h : loadDataFromFile disk = .error p) : ∃ msg, p = .unmarshal msg := by
  unfold loadDataFromFile at h
  cases hf : disk.dataFile with
  | none => simp [hf] at h
  | some content =>
    cases content with
    | notJSON =>
      simp only [hf, Except.error.injEq] at h
      exact ⟨_, h.symm⟩
    | json v =>
      simp only [hf] at h
      cases hu : Unmarshal v with
      | error e =>
        simp only [hu, Except.error.injEq] at h
        exact ⟨_, h.symm⟩
      | ok books => simp [hu] at h

/-- A panic of `createBook` is the one of `loadDataFromFile`, the one of
`saveDataToFile` on a disk that rejects the write, or the assignment to the nil
map that `loadDataFromFile` returned. -/
theorem createBook_abort (request : Request) (rnd : Fin 16 → Byte) (disk : Disk) (p : Panic)
    (h : createBook request rnd disk = .error p) :
    loadDataFromFile disk = .error p ∨ (p = .write ∧ disk.writable = false) ∨
      (p = .nilMapAssignment ∧ loadDataFromFile disk = .ok none) := by
  cases hread : ReadEntity request.body with
  | error e => rw [createBook_bad request rnd disk e hread] at h; cases h
  | ok b =>
    cases hload : loadDataFromFile disk with
    | error q =>
      unfold createBook at h
      simp only [hread, hload, Except.error.injEq] at h
      exact Or.inl (h ▸ rfl)
    | ok books =>
      rw [createBook_eq request rnd disk b books hread hload] at h
      cases books with
      | none =>
        simp only [Except.error.injEq] at h
        exact Or.inr (Or.inr ⟨h.symm, rfl⟩)
      | some c =>
        cases hw : disk.writable with
        | true => simp [hw] at h
        | false =>
          simp only [hw, Bool.false_eq_true, if_false, Except.error.injEq] at h
          exact Or.inr (Or.inl ⟨h.symm, rfl⟩)

/-- A panic of `deleteBook` is the one of `loadDataFromFile` or the one of
`saveDataToFile` on a disk that rejects the write. -/
theorem deleteBook_abort (request : Request) (disk : Disk) (p : Panic)
    (h : deleteBook request disk = .error p) :
    loadDataFromFile disk = .error p ∨ (p = .write ∧ disk.writable = false) := by
  cases hload : loadDataFromFile disk with
  | error q =>
    unfold deleteBook at h
    simp only [hload, Except.error.injEq] at h
    exact Or.inl (h ▸ rfl)
  | ok books =>
    rw [deleteBook_eq request disk books hload] at h
    cases hw : disk.writable with
    | true => simp [hw] at h
    | false =>
      simp only [hw, Bool.false_eq_true, if_false, Except.error.injEq] at h
      exact Or.inr ⟨h.symm, rfl⟩

/-- A panic of `updateBook` is the one of `loadDataFromFile` or the one of
`saveDataToFile` on a disk that rejects the write. -/
theorem updateBook_abort (request : Request) (disk : Disk) (p : Panic)
    (h : updateBook request disk = .error p) :
    loadDataFromFile disk = .error p ∨ (p = .write ∧ disk.writable = false) := by
  cases hload : loadDataFromFile disk with
  | error q =>
    unfold updateBook at h
    simp only [hload, Except.error.injEq] at h
    exact Or.inl (h ▸ rfl)
  | ok books =>
    cases hfound : books.index request.bookID with
    | none => rw [updateBook_absent request disk books hload hfound] at h; cases h
    | some existing =>
      cases hread : ReadEntity request.body with
      | error e => rw [updateBook_bad request disk books existing e hload hfound hread] at h; cases h
      | ok updated =>
        cases books with
        | none => cases hfound
        | some c =>
          rw [updateBook_eq request disk c existing updated hload hfound hread] at h
          cases hw : disk.writable with
          | true => simp [hw] at h
          | false =>
            simp only [hw, Bool.false_eq_true, if_false, Except.error.injEq] at h
            exact Or.inr ⟨h.symm, rfl⟩

theorem index_assign_self (c : Coll Book) (k : GoString) (b : Book) :
    GoMap.index (some (c.insert k b)) k = some b :=
  lookupEntry_insertEntry_self k b c.entries

theorem index_assign_ne (c : Coll Book) (j k : GoString) (b : Book) (h : j ≠ k) :
    GoMap.index (some (c.insert k b)) j = GoMap.index (some c) j :=
  lookupEntry_insertEntry_ne j k b c.entries h

theorem index_delete_self (m : GoMap Book) (k : GoString) : (m.delete k).index k = none := by
  cases m with
  | none => rfl
  | some c => exact lookupEntry_eraseEntry_self k c.entries

theorem index_delete_ne (m : GoMap Book) (j k : GoString) (h : j ≠ k) :
    (m.delete k).index j = m.index j := by
  cases m with
  | none => rfl
  | some c => exact lookupEntry_eraseEntry_ne j k c.entries h

theorem delete_delete (m : GoMap Book) (k : GoString) : (m.delete k).delete k = m.delete k := by
  cases m with
  | none => rfl
  | some c =>
    show some ((c.erase k).erase k) = some (c.erase k)
    exact congrArg some (Coll.ext (eraseEntry_eraseEntry k c.entries))

theorem delete_of_index_none (m : GoMap Book) (k : GoString) (h : m.index k = none) :
    m.delete k = m := by
  cases m with
  | none => rfl
  | some c =>
    show some (c.erase k) = some c
    exact congrArg some (Coll.ext (eraseEntry_of_lookupEntry_none k c.entries h))

end Persist

/-! ## The collections the program holds are valid UTF-8 -/

namespace Persist

/-- Every string of a collection the program holds is valid UTF-8: it was
decoded from JSON or produced by `generateID`. -/
theorem held_valid (m : GoMap Book) (h : Held m) : ValidMap m := by
  cases h with
  | load disk hload => exact loadDataFromFile_valid disk m hload
  | create request rnd disk hread hload hassign =>
    rename_i book books
    cases books with
    | none => cases hassign
    | some c =>
      cases hassign
      exact validMap_assign c _ _ (loadDataFromFile_valid disk _ hload) (generateID_valid rnd)
        ⟨generateID_valid rnd, (ReadEntity_valid _ book hread).2⟩
  | update request disk hload hfound hread hassign =>
    rename_i existingBook updatedBook books
    cases books with
    | none => cases hassign
    | some c =>
      cases hassign
      have hvm := loadDataFromFile_valid disk _ hload
      have hex := validMap_index (some c) request.bookID existingBook hvm hfound
      exact validMap_assign c _ _ hvm hex.1
        ⟨hex.2.1, (ReadEntity_valid _ updatedBook hread).2⟩
  | delete request disk hload =>
    exact validMap_delete _ _ (loadDataFromFile_valid disk _ hload)

/-- Whenever a handler returns with another disk than it was given, that disk
is what `saveDataToFile` returned for a collection the program holds. -/
theorem saved_is_held (request : Request) (rnd : Fin 16 → Byte) (disk disk1 : Disk)
    (r : Response Book)
    (h : createBook request rnd disk = .ok (r, disk1) ∨
      updateBook request disk = .ok (r, disk1) ∨ deleteBook request disk = .ok (r, disk1)) :
    disk1 = disk ∨ ∃ m, Held m ∧ saveDataToFile disk m = .ok disk1 := by
  cases hload : loadDataFromFile disk with
  | error p =>
    rcases h with h | h | h
    · cases hread : ReadEntity request.body with
      | error e =>
        rw [createBook_bad request rnd disk e hread] at h
        cases h
        exact Or.inl rfl
      | ok b =>
        unfold createBook at h
        simp [hread, hload] at h
    · unfold updateBook at h
      simp [hload] at h
    · unfold deleteBook at h
      simp [hload] at h
  | ok books =>
    rcases h with h | h | h
    · cases hread : ReadEntity request.body with
      | error e =>
        rw [createBook_bad request rnd disk e hread] at h
        cases h
        exact Or.inl rfl
      | ok b =>
        rw [createBook_eq request rnd disk b books hread hload] at h
        cases books with
        | none => cases h
        | some c =>
          cases hw : disk.writable with
          | false => simp [hw] at h
          | true =>
            simp only [hw, if_true] at h
            cases h
            refine Or.inr ⟨_, Held.create request rnd disk hread hload rfl, ?_⟩
            rw [saveDataToFile_eq]
            simp only [hw, if_true]
    · cases hfound : books.index request.bookID with
      | none =>
        rw [updateBook_absent request disk books hload hfound] at h
        cases h
        exact Or.inl rfl
      | some existing =>
        cases hread : ReadEntity request.body with
        | error e =>
          rw [updateBook_bad request disk books existing e hload hfound hread] at h
          cases h
          exact Or.inl rfl
        | ok updated =>
          cases books with
          | none => cases hfound
          | some c =>
            rw [updateBook_eq request disk c existing updated hload hfound hread] at h
            cases hw : disk.writable with
            | false => simp [hw] at h
            | true =>
              simp only [hw, if_true] at h
              cases h
              refine Or.inr ⟨_, Held.update request disk hload hfound hread rfl, ?_⟩
              rw [saveDataToFile_eq]
              simp only [hw, if_true]
    · rw [deleteBook_eq request disk books hload] at h
      cases hw : disk.writable with
      | false => simp [hw] at h
      | true =>
        simp only [hw, if_true] at h
        cases h
        refine Or.inr ⟨_, Held.delete request disk hload, ?_⟩
        rw [saveDataToFile_eq]
        simp only [hw, if_true]

/-- When the strings of the map are valid UTF-8 and `saveDataToFile` returns,
`loadDataFromFile` then returns that very map. -/
theorem load_of_save_valid (disk disk1 : Disk) (m : GoMap Book) (hm : ValidMap m)
    (hsave : saveDataToFile disk m = .ok disk1) : loadDataFromFile disk1 = .ok m := by
  rw [saveDataToFile_eq] at hsave
  cases hw : disk.writable with
  | false => simp [hw] at hsave
  | true =>
    simp only [hw, if_true] at hsave
    cases hsave
    exact load_written m hm

end Persist

/-! ## What one handler call does to the map -/

namespace Mem

theorem lookup_insert_self (books : Coll Book) (k : GoString) (b : Book) :
    (books.insert k b).lookup k = some b :=
  lookupEntry_insertEntry_self k b books.entries

theorem lookup_insert_ne (books : Coll Book) (j k : GoString) (b : Book) (h : j ≠ k) :
    (books.insert k b).lookup j = books.lookup j :=
  lookupEntry_insertEntry_ne j k b books.entries h

theorem lookup_erase_self (books : Coll Book) (k : GoString) :
    (books.erase k).lookup k = none :=
  lookupEntry_eraseEntry_self k books.entries

theorem lookup_erase_ne (books : Coll Book) (j k : GoString) (h : j ≠ k) :
    (books.erase k).lookup j = books.lookup j :=
  lookupEntry_eraseEntry_ne j k books.entries h

/-- The map after `createItem`: untouched, or with the new Book under its id. -/
theorem createItem_step (request : Request) (rnd : Fin 16 → Byte) (books : Coll Book) :
    (createItem request rnd books).2 = books ∨
    ∃ b : Book, (createItem request rnd books).2
      = books.insert (generateID rnd) ⟨generateID rnd, b.Name⟩ := by
  cases hread : ReadEntity request.body with
  | error e => exact Or.inl (by simp only [createItem, hread])
  | ok b => exact Or.inr ⟨b, by simp only [createItem, hread]⟩

/-- The map after `updateItem`: untouched, or with the stored Book retitled. -/
theorem updateItem_step (request : Request) (books : Coll Book) :
    (updateItem request books).2 = books ∨
    ∃ existing updated : Book, books.lookup request.bookID = some existing ∧
      (updateItem request books).2
        = books.insert request.bookID ⟨existing.ID, updated.Name⟩ := by
  cases hfound : books.lookup request.bookID with
  | none => exact Or.inl (by simp only [updateItem, hfound])
  | some existing =>
    cases hread : ReadEntity request.body with
    | error e => exact Or.inl (by simp only [updateItem, hfound, hread])
    | ok updated =>
      exact Or.inr ⟨existing, updated, rfl, by simp only [updateItem, hfound, hread]⟩

theorem getItem_step (request : Request) (books : Coll Book) :
    (getItem request books).2 = books := by
  cases h : books.lookup request.bookID <;> simp only [getItem, h]

end Mem

namespace Persist

/-- The disk after `createBook` has returned: untouched, or holding the loaded
map with the new Book under its id. -/
theorem createBook_step (request : Request) (rnd : Fin 16 → Byte) (disk disk1 : Disk)
    (books : GoMap Book) (r : Response Book) (hload : loadDataFromFile disk = .ok books)
    (h : createBook request rnd disk = .ok (r, disk1)) :
    disk1 = disk ∨
    ∃ (c : Coll Book) (b : Book), books = some c ∧
      loadDataFromFile disk1
        = .ok (some (c.insert (generateID rnd) ⟨generateID rnd, b.Title⟩)) := by
  cases hread : ReadEntity request.body with
  | error e =>
    rw [createBook_bad request rnd disk e hread] at h
    cases h
    exact Or.inl rfl
  | ok b =>
    rw [createBook_eq request rnd disk b books hread hload] at h
    cases books with
    | none => cases h
    | some c =>
      cases hw : disk.writable with
      | false => simp [hw] at h
      | true =>
        simp only [hw, if_true] at h
        cases h
        exact Or.inr ⟨c, b, rfl, load_written _ (validMap_assign c _ _
          (loadDataFromFile_valid disk _ hload) (generateID_valid rnd)
          ⟨generateID_valid rnd, (ReadEntity_valid _ b hread).2⟩)⟩

/-- The disk after `updateBook` has returned: untouched, or holding the loaded
map with the stored Book retitled. -/
theorem updateBook_step (request : Request) (disk disk1 : Disk) (books : GoMap Book)
    (r : Response Book) (hload : loadDataFromFile disk = .ok books)
    (h : updateBook request disk = .ok (r, disk1)) :
    disk1 = disk ∨
    ∃ (c : Coll Book) (existing updated : Book), books = some c ∧
      c.lookup request.bookID = some existing ∧
      loadDataFromFile disk1
        = .ok (some (c.insert request.bookID ⟨existing.ID, updated.Title⟩)) := by
  cases hfound : books.index request.bookID with
  | none =>
    rw [updateBook_absent request disk books hload hfound] at h
    cases h
    exact Or.inl rfl
  | some existing =>
    cases hread : ReadEntity request.body with
    | error e =>
      rw [updateBook_bad request disk books existing e hload hfound hread] at h
      cases h
      exact Or.inl rfl
    | ok updated =>
      cases books with
      | none => cases hfound
      | some c =>
        rw [updateBook_eq request disk c existing updated hload hfound hread] at h
        cases hw : disk.writable with
        | false => simp [hw] at h
        | true =>
          simp only [hw, if_true] at h
          cases h
          have hvm := loadDataFromFile_valid disk _ hload
          have hex := validMap_index (some c) request.bookID existing hvm hfound
          exact Or.inr ⟨c, existing, updated, rfl, hfound, load_written _
            (validMap_assign c _ _ hvm hex.1 ⟨hex.2.1, (ReadEntity_valid _ updated hread).2⟩)⟩

/-- The disk after `deleteBook` has returned holds the loaded map without the id. -/
theorem deleteBook_step (request : Request) (disk disk1 : Disk) (books : GoMap Book)
    (r : Response Book) (hload : loadDataFromFile disk = .ok books)
    (h : deleteBook request disk = .ok (r, disk1)) :
    loadDataFromFile disk1 = .ok (books.delete request.bookID) := by
  rw [deleteBook_eq request disk books hload] at h
  cases hw : disk.writable with
  | false => simp [hw] at h
  | true =>
    simp only [hw, if_true] at h
    cases h
    exact load_written _ (validMap_delete books _ (loadDataFromFile_valid disk _ hload))

theorem getBook_step (request : Request) (disk disk1 : Disk) (r : Response Book)
    (h : getBook request disk = .ok (r, disk1)) : disk1 = disk := by
  unfold getBook at h
  cases hload : loadDataFromFile disk with
  | error p => simp [hload] at h
  | ok books =>
    simp only [hload] at h
    cases hidx : books.index request.bookID with
    | none => simp only [hidx] at h; cases h; rfl
    | some b => simp only [hidx] at h; cases h; rfl

theorem getBooks_step (request : Request) (disk disk1 : Disk) (r : Response Book)
    (h : getBooks request disk = .ok (r, disk1)) : disk1 = disk := by
  unfold getBooks at h
  cases hload : loadDataFromFile disk with
  | error p => simp [hload] at h
  | ok books => simp only [hload] at h; cases h; rfl

end Persist

/-! ## The store invariant along handler calls -/

namespace Mem

theorem inv_insert (books : Coll Book) (k : GoString) (b : Book) (hinv : Inv books)
    (hid : b.ID = k) (hne : k ≠ []) : Inv (books.insert k b) := by
  intro j b1 h
  by_cases hj : j = k
  · subst hj
    rw [lookup_insert_self] at h
    cases h
    exact ⟨hid, hid ▸ hne⟩
  · rw [lookup_insert_ne books j k b hj] at h
    exact hinv j b1 h

theorem inv_erase (books : Coll Book) (k : GoString) (hinv : Inv books) :
    Inv (books.erase k) := by
  intro j b1 h
  by_cases hj : j = k
  · subst hj
    rw [lookup_erase_self] at h
    cases h
  · rw [lookup_erase_ne books j k hj] at h
    exact hinv j b1 h

theorem inv_of_reachable_items (books : Coll Book) (h : Reachable books) : Inv books := by
  induction h with
  | start => intro k b hk; cases hk
  | list request _ ih => exact ih
  | get request _ ih => rw [getItem_step]; exact ih
  | create request rnd _ ih =>
    rcases createItem_step request rnd _ with h | ⟨b, h⟩
    · rw [h]; exact ih
    · rw [h]; exact inv_insert _ _ _ ih rfl (generateID_ne_nil rnd)
  | update request _ ih =>
    rcases updateItem_step request _ with h | ⟨existing, updated, hfound, h⟩
    · rw [h]; exact ih
    · rw [h]
      have hex := ih _ _ hfound
      exact inv_insert _ _ _ ih hex.1 (hex.1 ▸ hex.2)
  | delete request _ ih => exact inv_erase _ _ ih

end Mem

namespace Persist

theorem inv_assign (c : Coll Book) (k : GoString) (b : Book) (hinv : Inv (some c))
    (hid : b.ID = k) (hne : k ≠ []) : Inv (some (c.insert k b)) := by
  intro j b1 h
  by_cases hj : j = k
  · subst hj
    rw [index_assign_self] at h
    cases h
    exact ⟨hid, hid ▸ hne⟩
  · rw [index_assign_ne c j k b hj] at h
    exact hinv j b1 h

theorem inv_delete (m : GoMap Book) (k : GoString) (hinv : Inv m) : Inv (m.delete k) := by
  intro j b1 h
  by_cases hj : j = k
  · subst hj
    rw [index_delete_self] at h
    cases h
  · rw [index_delete_ne m j k hj] at h
    exact hinv j b1 h

theorem inv_of_reachable_disk (disk : Disk) (h : Reachable disk) :
    ∃ c, loadDataFromFile disk = .ok (some c) ∧ Inv (some c) := by
  induction h with
  | start writable => exact ⟨Coll.empty, rfl, fun k b hk => by cases hk⟩
  | list request _ hstep ih => rw [getBooks_step _ _ _ _ hstep]; exact ih
  | get request _ hstep ih => rw [getBook_step _ _ _ _ hstep]; exact ih
  | create request rnd _ hstep ih =>
    obtain ⟨c, hload, hinv⟩ := ih
    rcases createBook_step request rnd _ _ _ _ hload hstep with h | ⟨c1, b, hc, h⟩
    · rw [h]; exact ⟨c, hload, hinv⟩
    · cases hc
      exact ⟨_, h, inv_assign _ _ _ hinv rfl (generateID_ne_nil rnd)⟩
  | update request _ hstep ih =>
    obtain ⟨c, hload, hinv⟩ := ih
    rcases updateBook_step request _ _ _ _ hload hstep with
      h | ⟨c1, existing, updated, hc, hfound, h⟩
    · rw [h]; exact ⟨c, hload, hinv⟩
    · cases hc
      have hex := hinv _ _ hfound
      exact ⟨_, h, inv_assign _ _ _ hinv hex.1 (hex.1 ▸ hex.2)⟩
  | delete request _ hstep ih =>
    obtain ⟨c, hload, hinv⟩ := ih
    exact ⟨_, deleteBook_step request _ _ _ _ hload hstep, inv_delete (some c) _ hinv⟩

end Persist

/-! ## The claims -/

/-- C1, amended.  A parsable POST body with title `t` is answered 201 with the
Book of the freshly generated id (`"id"` followed by the UUID string, non-empty)
and title `t`, and a following get of that id is answered 200 with the same
Book: for every in-memory map, and in the persistent variant whenever
`loadDataFromFile` returns an allocated map and the file can be written. -/
theorem create_then_get :
    (∀ (books : Coll Mem.Book) (request request2 : Request) (rnd : Fin 16 → Byte)
        (b : Mem.Book),
      Mem.ReadEntity request.body = .ok b → request2.bookID = generateID rnd →
      generateID rnd = goLit "id" ++ uuid.String (uuid.New rnd) ∧ generateID rnd ≠ [] ∧
      (Mem.createItem request rnd books).1 = ⟨201, .book ⟨generateID rnd, b.Name⟩⟩ ∧
      (Mem.getItem request2 (Mem.createItem request rnd books).2).1
        = ⟨200, .book ⟨generateID rnd, b.Name⟩⟩) ∧
    (∀ (disk : Persist.Disk) (c : Coll Persist.Book) (request request2 : Request)
        (rnd : Fin 16 → Byte) (b : Persist.Book),
      Persist.ReadEntity request.body = .ok b → request2.bookID = generateID rnd →
      Persist.loadDataFromFile disk = .ok (some c) → disk.writable = true →
      generateID rnd = goLit "id" ++ uuid.String (uuid.New rnd) ∧ generateID rnd ≠ [] ∧
      ∃ disk1,
        Persist.createBook request rnd disk
          = .ok (⟨201, .book ⟨generateID rnd, b.Title⟩⟩, disk1) ∧
        Persist.getBook request2 disk1
          = .ok (⟨200, .book ⟨generateID rnd, b.Title⟩⟩, disk1)) := by
  constructor
  · intro books request request2 rnd b hread hid
    refine ⟨rfl, generateID_ne_nil rnd, ?_, ?_⟩
    · simp only [Mem.createItem, hread]
    · simp only [Mem.createItem, hread, Mem.getItem, hid, Coll.lookup, Coll.insert,
        lookupEntry_insertEntry_self]
  · intro disk c request request2 rnd b hread hid hload hw
    refine ⟨rfl, generateID_ne_nil rnd,
      Persist.written (some (c.insert (generateID rnd) ⟨generateID rnd, b.Title⟩)), ?_, ?_⟩
    · rw [Persist.createBook_eq request rnd disk b (some c) hread hload]
      simp only [hw, if_true]
    · have hv : Persist.ValidMap (some (c.insert (generateID rnd) ⟨generateID rnd, b.Title⟩)) :=
        Persist.validMap_assign c _ _ (Persist.loadDataFromFile_valid disk _ hload)
          (generateID_valid rnd) ⟨generateID_valid rnd, (Persist.ReadEntity_valid _ b hread).2⟩
      rw [Persist.getBook_eq request2 _ _ (Persist.load_written _ hv), hid,
        Persist.index_assign_self]

/-- C1, witness: the body `{"name":"Dune"}` posted to the empty in-memory map,
and `{"title":"Dune"}` posted to a writable disk without data file; the
hypotheses hold there and the conclusions follow. -/
theorem create_then_get_witness :
    (Mem.ReadEntity duneNameBody = .ok ⟨[], goLit "Dune"⟩ ∧
      (Mem.createItem ⟨[], duneNameBody⟩ zeroRnd Coll.empty).1
        = ⟨201, .book ⟨zeroID, goLit "Dune"⟩⟩ ∧
      (Mem.getItem ⟨zeroID, .unreadable⟩
          (Mem.createItem ⟨[], duneNameBody⟩ zeroRnd Coll.empty).2).1
        = ⟨200, .book ⟨zeroID, goLit "Dune"⟩⟩) ∧
    (Persist.ReadEntity duneBody = .ok ⟨[], goLit "Dune"⟩ ∧
      Persist.loadDataFromFile ⟨none, true⟩ = .ok (some Coll.empty) ∧
      ∃ disk1,
        Persist.createBook ⟨[], duneBody⟩ zeroRnd ⟨none, true⟩
          = .ok (⟨201, .book ⟨zeroID, goLit "Dune"⟩⟩, disk1) ∧
        Persist.getBook ⟨zeroID, .unreadable⟩ disk1
          = .ok (⟨200, .book ⟨zeroID, goLit "Dune"⟩⟩, disk1)) :=
  ⟨⟨rfl, (create_then_get.1 Coll.empty ⟨[], duneNameBody⟩ ⟨zeroID, .unreadable⟩ zeroRnd
      ⟨[], goLit "Dune"⟩ rfl rfl).2.2⟩,
    ⟨rfl, rfl, (create_then_get.2 ⟨none, true⟩ Coll.empty ⟨[], duneBody⟩
      ⟨zeroID, .unreadable⟩ zeroRnd ⟨[], goLit "Dune"⟩ rfl rfl rfl rfl).2.2⟩⟩

/-- C1 as stated fails: on a disk that rejects writes the data file holds a
collection and the body parses, yet `createBook` panics instead of answering 201. -/
theorem create_aborts_on_write_failure :
    Persist.loadDataFromFile readOnlyDisk = .ok (some duneBooks) ∧
    Persist.ReadEntity duneBody = .ok ⟨[], goLit "Dune"⟩ ∧
    Persist.createBook ⟨[], duneBody⟩ zeroRnd readOnlyDisk = .error .write := by
  refine ⟨rfl, rfl, rfl⟩

/-- C2, amended.  A parsable PUT body with title `t2` for a present id is
answered 200 with the Book that keeps the stored id and has title `t2`, and a
following get of that id is answered 200 with the same Book: for every
in-memory map, and in the persistent variant whenever the file can be written. -/
theorem update_then_get :
    (∀ (books : Coll Mem.Book) (request request2 : Request) (existing updated : Mem.Book),
      books.lookup request.bookID = some existing →
      Mem.ReadEntity request.body = .ok updated → request2.bookID = request.bookID →
      (Mem.updateItem request books).1 = ⟨200, .book ⟨existing.ID, updated.Name⟩⟩ ∧
      (Mem.getItem request2 (Mem.updateItem request books).2).1
        = ⟨200, .book ⟨existing.ID, updated.Name⟩⟩) ∧
    (∀ (disk : Persist.Disk) (books : GoMap Persist.Book) (request request2 : Request)
        (existing updated : Persist.Book),
      Persist.loadDataFromFile disk = .ok books →
      books.index request.bookID = some existing →
      Persist.ReadEntity request.body = .ok updated → request2.bookID = request.bookID →
      disk.writable = true →
      ∃ disk1,
        Persist.updateBook request disk
          = .ok (⟨200, .book ⟨existing.ID, updated.Title⟩⟩, disk1) ∧
        Persist.getBook request2 disk1
          = .ok (⟨200, .book ⟨existing.ID, updated.Title⟩⟩, disk1)) := by
  constructor
  · intro books request request2 existing updated hfound hread hid
    have hu : Mem.updateItem request books = (⟨200, .book ⟨existing.ID, updated.Name⟩⟩,
        books.insert request.bookID ⟨existing.ID, updated.Name⟩) := by
      simp only [Mem.updateItem, hfound, hread]
    have hl : (books.insert request.bookID ⟨existing.ID, updated.Name⟩).lookup request.bookID
        = some ⟨existing.ID, updated.Name⟩ := lookupEntry_insertEntry_self _ _ books.entries
    rw [hu]
    exact ⟨rfl, by simp only [Mem.getItem, hid, hl]⟩
  · intro disk books request request2 existing updated hload hfound hread hid hw
    cases books with
    | none => cases hfound
    | some c =>
      refine ⟨Persist.written
        (some (c.insert request.bookID ⟨existing.ID, updated.Title⟩)), ?_, ?_⟩
      · rw [Persist.updateBook_eq request disk c existing updated hload hfound hread]
        simp only [hw, if_true]
      · have hvm := Persist.loadDataFromFile_valid disk _ hload
        have hex := Persist.validMap_index (some c) request.bookID existing hvm hfound
        have hv : Persist.ValidMap
            (some (c.insert request.bookID ⟨existing.ID, updated.Title⟩)) :=
          Persist.validMap_assign c _ _ hvm hex.1
            ⟨hex.2.1, (Persist.ReadEntity_valid _ updated hread).2⟩
        rw [Persist.getBook_eq request2 _ _ (Persist.load_written _ hv), hid,
          Persist.index_assign_self]

/-- C2, witness: the body `{"name":"Dune Messiah"}`, respectively
`{"title":"Dune Messiah"}`, put to the id of the one stored Book; the hypotheses
hold there and the conclusions follow. -/
theorem update_then_get_witness :
    (duneItems.lookup zeroID = some ⟨zeroID, goLit "Dune"⟩ ∧
      Mem.ReadEntity messiahNameBody = .ok ⟨[], goLit "Dune Messiah"⟩ ∧
      (Mem.updateItem ⟨zeroID, messiahNameBody⟩ duneItems).1
        = ⟨200, .book ⟨zeroID, goLit "Dune Messiah"⟩⟩ ∧
      (Mem.getItem ⟨zeroID, .unreadable⟩
          (Mem.updateItem ⟨zeroID, messiahNameBody⟩ duneItems).2).1
        = ⟨200, .book ⟨zeroID, goLit "Dune Messiah"⟩⟩) ∧
    (Persist.loadDataFromFile duneDisk = .ok (some duneBooks) ∧
      GoMap.index (some duneBooks) zeroID = some ⟨zeroID, goLit "Dune"⟩ ∧
      Persist.ReadEntity messiahBody = .ok ⟨[], goLit "Dune Messiah"⟩ ∧
      duneDisk.writable = true ∧
      ∃ disk1,
        Persist.updateBook ⟨zeroID, messiahBody⟩ duneDisk
          = .ok (⟨200, .book ⟨zeroID, goLit "Dune Messiah"⟩⟩, disk1) ∧
        Persist.getBook ⟨zeroID, .unreadable⟩ disk1
          = .ok (⟨200, .book ⟨zeroID, goLit "Dune Messiah"⟩⟩, disk1)) :=
  ⟨⟨rfl, rfl, update_then_get.1 duneItems ⟨zeroID, messiahNameBody⟩ ⟨zeroID, .unreadable⟩
      ⟨zeroID, goLit "Dune"⟩ ⟨[], goLit "Dune Messiah"⟩ rfl rfl rfl⟩,
    ⟨rfl, rfl, rfl, rfl, update_then_get.2 duneDisk (some duneBooks) ⟨zeroID, messiahBody⟩
      ⟨zeroID, .unreadable⟩ ⟨zeroID, goLit "Dune"⟩ ⟨[], goLit "Dune Messiah"⟩
      rfl rfl rfl rfl rfl⟩⟩

/-- C2 as stated fails: on a disk that rejects writes the collection holds the
id and the body parses, yet `updateBook` panics instead of answering 200. -/
theorem update_aborts_on_write_failure :
    Persist.loadDataFromFile readOnlyDisk = .ok (some duneBooks) ∧
    GoMap.index (some duneBooks) zeroID = some ⟨zeroID, goLit "Dune"⟩ ∧
    Persist.ReadEntity messiahBody = .ok ⟨[], goLit "Dune Messiah"⟩ ∧
    Persist.updateBook ⟨zeroID, messiahBody⟩ readOnlyDisk = .error .write :=
  ⟨rfl, rfl, rfl, rfl⟩

/-- C3.  For an id that is not a key of the collection, get and update are
answered 404, update whatever the body, and the map (the disk, in the
persistent variant) stays as it was. -/
theorem absent_id_not_found :
    (∀ (books : Coll Mem.Book) (request : Request),
      books.lookup request.bookID = none →
      Mem.getItem request books = (⟨404, .error "book not found"⟩, books) ∧
      Mem.updateItem request books = (⟨404, .error "Book not found"⟩, books)) ∧
    (∀ (disk : Persist.Disk) (books : GoMap Persist.Book) (request : Request),
      Persist.loadDataFromFile disk = .ok books → books.index request.bookID = none →
      Persist.getBook request disk = .ok (⟨404, .error "Book not found"⟩, disk) ∧
      Persist.updateBook request disk = .ok (⟨404, .error "Book not found"⟩, disk)) := by
  constructor
  · intro books request habs
    constructor
    · simp only [Mem.getItem, habs]
    · simp only [Mem.updateItem, habs]
  · intro disk books request hload habs
    constructor
    · rw [Persist.getBook_eq request disk books hload, habs]
    · exact Persist.updateBook_absent request disk books hload habs

/-- C3, witness: an id asked of the empty in-memory map, and of a disk without
data file that rejects writes; the id is absent there and both answers are 404. -/
theorem absent_id_not_found_witness :
    ((Coll.empty : Coll Mem.Book).lookup zeroID = none ∧
      Mem.getItem ⟨zeroID, duneNameBody⟩ Coll.empty
        = (⟨404, .error "book not found"⟩, Coll.empty) ∧
      Mem.updateItem ⟨zeroID, duneNameBody⟩ Coll.empty
        = (⟨404, .error "Book not found"⟩, Coll.empty)) ∧
    (Persist.loadDataFromFile ⟨none, false⟩ = .ok (some Coll.empty) ∧
      GoMap.index (some (Coll.empty : Coll Persist.Book)) zeroID = none ∧
      Persist.getBook ⟨zeroID, duneBody⟩ ⟨none, false⟩
        = .ok (⟨404, .error "Book not found"⟩, ⟨none, false⟩) ∧
      Persist.updateBook ⟨zeroID, duneBody⟩ ⟨none, false⟩
        = .ok (⟨404, .error "Book not found"⟩, ⟨none, false⟩)) :=
  ⟨⟨rfl, absent_id_not_found.1 Coll.empty ⟨zeroID, duneNameBody⟩ rfl⟩,
    ⟨rfl, rfl, absent_id_not_found.2 ⟨none, false⟩ (some Coll.empty) ⟨zeroID, duneBody⟩
      rfl rfl⟩⟩

/-- C4, amended.  Delete is answered 204 whether or not the id is present, a
following get of the id is answered 404, a second delete of the id leaves the
collection as the first left it, and deleting an absent id leaves the mapping
unchanged: for every in-memory map, and in the persistent variant whenever the
file can be written. -/
theorem delete_idempotent :
    (∀ (books : Coll Mem.Book) (request request2 : Request),
      request2.bookID = request.bookID →
      (Mem.deleteItem request books).1 = ⟨204, .none⟩ ∧
      Mem.getItem request2 (Mem.deleteItem request books).2
        = (⟨404, .error "book not found"⟩, (Mem.deleteItem request books).2) ∧
      Mem.deleteItem request (Mem.deleteItem request books).2
        = (⟨204, .none⟩, (Mem.deleteItem request books).2) ∧
      (books.lookup request.bookID = none → (Mem.deleteItem request books).2 = books)) ∧
    (∀ (disk : Persist.Disk) (books : GoMap Persist.Book) (request request2 : Request),
      Persist.loadDataFromFile disk = .ok books → request2.bookID = request.bookID →
      disk.writable = true →
      ∃ disk1,
        Persist.deleteBook request disk = .ok (⟨204, .none⟩, disk1) ∧
        Persist.getBook request2 disk1 = .ok (⟨404, .error "Book not found"⟩, disk1) ∧
        Persist.deleteBook request disk1 = .ok (⟨204, .none⟩, disk1) ∧
        Persist.loadDataFromFile disk1 = .ok (books.delete request.bookID) ∧
        (books.index request.bookID = none → Persist.loadDataFromFile disk1 = .ok books)) := by
  constructor
  · intro books request request2 hid
    have hself : (books.erase request.bookID).lookup request.bookID = none :=
      lookupEntry_eraseEntry_self _ books.entries
    refine ⟨rfl, ?_, ?_, ?_⟩
    · simp only [Mem.deleteItem, Mem.getItem, hid, hself]
    · simp only [Mem.deleteItem]
      exact congrArg _ (Coll.ext (eraseEntry_eraseEntry _ books.entries))
    · intro habs
      exact Coll.ext (eraseEntry_of_lookupEntry_none _ books.entries habs)
  · intro disk books request request2 hload hid hw
    have hv : Persist.ValidMap (books.delete request.bookID) :=
      Persist.validMap_delete books _ (Persist.loadDataFromFile_valid disk _ hload)
    have hload1 := Persist.load_written _ hv
    refine ⟨Persist.written (books.delete request.bookID), ?_, ?_, ?_, hload1, ?_⟩
    · rw [Persist.deleteBook_eq request disk books hload]
      simp only [hw, if_true]
    · rw [Persist.getBook_eq request2 _ _ hload1, hid, Persist.index_delete_self]
    · rw [Persist.deleteBook_eq request _ _ hload1, Persist.delete_delete]
      rfl
    · intro habs
      rw [hload1, Persist.delete_of_index_none books _ habs]

/-- C4, witness: deleting the one stored Book from the in-memory map and from a
writable disk; the hypotheses hold there and the conclusions follow. -/
theorem delete_idempotent_witness :
    ((Mem.deleteItem ⟨zeroID, .unreadable⟩ duneItems).1 = ⟨204, .none⟩ ∧
      Mem.deleteItem ⟨zeroID, .unreadable⟩ (Mem.deleteItem ⟨zeroID, .unreadable⟩ duneItems).2
        = (⟨204, .none⟩, (Mem.deleteItem ⟨zeroID, .unreadable⟩ duneItems).2)) ∧
    (Persist.loadDataFromFile duneDisk = .ok (some duneBooks) ∧
      duneDisk.writable = true ∧
      ∃ disk1,
        Persist.deleteBook ⟨zeroID, .unreadable⟩ duneDisk = .ok (⟨204, .none⟩, disk1) ∧
        Persist.getBook ⟨zeroID, .unreadable⟩ disk1
          = .ok (⟨404, .error "Book not found"⟩, disk1) ∧
        Persist.deleteBook ⟨zeroID, .unreadable⟩ disk1 = .ok (⟨204, .none⟩, disk1)) :=
  ⟨⟨(delete_idempotent.1 duneItems ⟨zeroID, .unreadable⟩ ⟨zeroID, .unreadable⟩ rfl).1,
      (delete_idempotent.1 duneItems ⟨zeroID, .unreadable⟩ ⟨zeroID, .unreadable⟩ rfl).2.2.1⟩,
    ⟨rfl, rfl, (delete_idempotent.2 duneDisk (some duneBooks) ⟨zeroID, .unreadable⟩
      ⟨zeroID, .unreadable⟩ rfl rfl rfl).imp fun _ h => ⟨h.1, h.2.1, h.2.2.1⟩⟩⟩

/-- C4 as stated fails: on a disk that rejects writes `deleteBook` panics
instead of answering 204, for a present id and for an absent one. -/
theorem delete_aborts_on_write_failure :
    Persist.loadDataFromFile readOnlyDisk = .ok (some duneBooks) ∧
    Persist.deleteBook ⟨zeroID, .unreadable⟩ readOnlyDisk = .error .write ∧
    Persist.deleteBook ⟨goLit "other", .unreadable⟩ readOnlyDisk = .error .write :=
  ⟨rfl, rfl, rfl⟩

/-- C5.  A body that does not parse is answered 400 by create, and by update on
a present id, and the map (the disk, in the persistent variant) stays as it
was; the disk need not even accept writes, so nothing is written. -/
theorem unparsable_body_bad_request :
    (∀ (books : Coll Mem.Book) (request : Request) (rnd : Fin 16 → Byte) (e : String),
      Mem.ReadEntity request.body = .error e →
      Mem.createItem request rnd books = (⟨400, .error e⟩, books) ∧
      ∀ existing, books.lookup request.bookID = some existing →
        Mem.updateItem request books = (⟨400, .error e⟩, books)) ∧
    (∀ (disk : Persist.Disk) (request : Request) (rnd : Fin 16 → Byte) (e : String),
      Persist.ReadEntity request.body = .error e →
      Persist.createBook request rnd disk = .ok (⟨400, .error e⟩, disk) ∧
      ∀ books existing, Persist.loadDataFromFile disk = .ok books →
        books.index request.bookID = some existing →
        Persist.updateBook request disk = .ok (⟨400, .error e⟩, disk)) := by
  constructor
  · intro books request rnd e hread
    constructor
    · simp only [Mem.createItem, hread]
    · intro existing hfound
      simp only [Mem.updateItem, hfound, hread]
  · intro disk request rnd e hread
    constructor
    · exact Persist.createBook_bad request rnd disk e hread
    · intro books existing hload hfound
      exact Persist.updateBook_bad request disk books existing e hload hfound hread

/-- C5, witness: a body that is no JSON, sent to create and to update of the
stored id, in memory and on a disk that rejects writes. -/
theorem unparsable_body_bad_request_witness :
    (Mem.ReadEntity .unreadable = .error "invalid JSON input" ∧
      duneItems.lookup zeroID = some ⟨zeroID, goLit "Dune"⟩ ∧
      Mem.createItem ⟨[], .unreadable⟩ zeroRnd duneItems
        = (⟨400, .error "invalid JSON input"⟩, duneItems) ∧
      Mem.updateItem ⟨zeroID, .unreadable⟩ duneItems
        = (⟨400, .error "invalid JSON input"⟩, duneItems)) ∧
    (Persist.ReadEntity .unreadable = .error "invalid JSON input" ∧
      Persist.loadDataFromFile readOnlyDisk = .ok (some duneBooks) ∧
      GoMap.index (some duneBooks) zeroID = some ⟨zeroID, goLit "Dune"⟩ ∧
      Persist.createBook ⟨[], .unreadable⟩ zeroRnd readOnlyDisk
        = .ok (⟨400, .error "invalid JSON input"⟩, readOnlyDisk) ∧
      Persist.updateBook ⟨zeroID, .unreadable⟩ readOnlyDisk
        = .ok (⟨400, .error "invalid JSON input"⟩, readOnlyDisk)) :=
  ⟨⟨rfl, rfl, (unparsable_body_bad_request.1 duneItems ⟨[], .unreadable⟩ zeroRnd _ rfl).1,
      (unparsable_body_bad_request.1 duneItems ⟨zeroID, .unreadable⟩ zeroRnd _ rfl).2
        ⟨zeroID, goLit "Dune"⟩ rfl⟩,
    ⟨rfl, rfl, rfl,
      (unparsable_body_bad_request.2 readOnlyDisk ⟨[], .unreadable⟩ zeroRnd _ rfl).1,
      (unparsable_body_bad_request.2 readOnlyDisk ⟨zeroID, .unreadable⟩ zeroRnd _ rfl).2
        (some duneBooks) ⟨zeroID, goLit "Dune"⟩ rfl rfl⟩⟩

/-- C6.  Round trip of the file store: for every collection the program holds
(a map `loadDataFromFile` returned, or a map a handler hands to
`saveDataToFile`), if `saveDataToFile` returns, `loadDataFromFile` then returns
that very map: the same keys and, under each key, the same id and title. -/
theorem save_load_roundtrip (disk disk1 : Persist.Disk) (m : GoMap Persist.Book)
    (hm : Persist.Held m) (hsave : Persist.saveDataToFile disk m = .ok disk1) :
    Persist.loadDataFromFile disk1 = .ok m :=
  Persist.load_of_save_valid disk disk1 m (Persist.held_valid m hm) hsave

/-- C6, witness: the map `createBook` saves for `{"title":"Dune"}` where no
file was is held by the program, is saved, and is loaded back as it was. -/
theorem save_load_roundtrip_witness :
    Persist.Held (some duneBooks) ∧
    Persist.saveDataToFile ⟨none, true⟩ (some duneBooks) = .ok duneDisk ∧
    Persist.loadDataFromFile duneDisk = .ok (some duneBooks) :=
  ⟨Persist.Held.create ⟨[], duneBody⟩ zeroRnd ⟨none, true⟩ rfl rfl rfl, rfl,
    save_load_roundtrip ⟨none, true⟩ duneDisk (some duneBooks)
      (Persist.Held.create ⟨[], duneBody⟩ zeroRnd ⟨none, true⟩ rfl rfl rfl) rfl⟩

/-- C7, amended.  The list handler answers 200 with the whole map: always in
memory, and in the persistent variant whenever `loadDataFromFile` returns, with
exactly the map it returns; without a readable data file that is the allocated
empty map. -/
theorem list_returns_collection :
    (∀ (request : Request) (books : Coll Mem.Book),
      Mem.getItems request books = (⟨200, .books (some books)⟩, books)) ∧
    (∀ (request : Request) (disk : Persist.Disk) (books : GoMap Persist.Book),
      Persist.loadDataFromFile disk = .ok books →
      Persist.getBooks request disk = .ok (⟨200, .books books⟩, disk)) ∧
    (∀ (request : Request) (writable : Bool),
      Persist.loadDataFromFile ⟨none, writable⟩ = .ok (some Coll.empty) ∧
      (Coll.empty : Coll Persist.Book).entries = [] ∧
      Persist.getBooks request ⟨none, writable⟩
        = .ok (⟨200, .books (some Coll.empty)⟩, ⟨none, writable⟩)) :=
  ⟨fun _ _ => rfl, fun request disk books hload => Persist.getBooks_eq request disk books hload,
    fun _ _ => ⟨rfl, rfl, rfl⟩⟩

/-- C7, witness: listing the disk that holds the one Book "Dune", from which
`loadDataFromFile` returns. -/
theorem list_returns_collection_witness :
    Persist.loadDataFromFile duneDisk = .ok (some duneBooks) ∧
    Persist.getBooks ⟨[], .unreadable⟩ duneDisk
      = .ok (⟨200, .books (some duneBooks)⟩, duneDisk) :=
  ⟨rfl, list_returns_collection.2.1 ⟨[], .unreadable⟩ duneDisk (some duneBooks) rfl⟩

/-- C7 as stated fails: when the data file is not JSON the list handler panics
instead of answering 200. -/
theorem list_aborts_on_corrupt_file :
    Persist.getBooks ⟨[], .unreadable⟩ corruptDisk
      = .error (.unmarshal "invalid character") :=
  rfl

/-- C8.  In every state reached from the empty map (no data file) by handler
calls, every stored Book has a non-empty id equal to its key.  Update and delete
store no Book whose key and id were not stored before, and create leaves every
stored Book its id. -/
theorem store_invariant :
    (∀ books : Coll Mem.Book, Mem.Reachable books → Mem.Inv books) ∧
    (∀ disk : Persist.Disk, Persist.Reachable disk →
      ∃ c, Persist.loadDataFromFile disk = .ok (some c) ∧ Persist.Inv (some c)) ∧
    (∀ (books : Coll Mem.Book) (request : Request) (k : GoString) (b1 : Mem.Book),
      (Mem.updateItem request books).2.lookup k = some b1 ∨
        (Mem.deleteItem request books).2.lookup k = some b1 →
      ∃ b, books.lookup k = some b ∧ b1.ID = b.ID) ∧
    (∀ (disk disk1 : Persist.Disk) (books : GoMap Persist.Book) (request : Request)
        (r : Response Persist.Book),
      Persist.loadDataFromFile disk = .ok books →
      Persist.updateBook request disk = .ok (r, disk1) ∨
        Persist.deleteBook request disk = .ok (r, disk1) →
      ∃ books1, Persist.loadDataFromFile disk1 = .ok books1 ∧
        ∀ k b1, books1.index k = some b1 → ∃ b, books.index k = some b ∧ b1.ID = b.ID) ∧
    (∀ (books : Coll Mem.Book) (request : Request) (rnd : Fin 16 → Byte) (k : GoString)
        (b : Mem.Book),
      Mem.Reachable books → books.lookup k = some b →
      ∃ b1, (Mem.createItem request rnd books).2.lookup k = some b1 ∧ b1.ID = b.ID) ∧
    (∀ (disk disk1 : Persist.Disk) (books : GoMap Persist.Book) (request : Request)
        (rnd : Fin 16 → Byte) (r : Response Persist.Book) (k : GoString) (b : Persist.Book),
      Persist.Reachable disk → Persist.loadDataFromFile disk = .ok books →
      Persist.createBook request rnd disk = .ok (r, disk1) → books.index k = some b →
      ∃ books1 b1, Persist.loadDataFromFile disk1 = .ok books1 ∧
        books1.index k = some b1 ∧ b1.ID = b.ID) := by
  refine ⟨Mem.inv_of_reachable_items, Persist.inv_of_reachable_disk, ?_, ?_, ?_, ?_⟩
  · intro books request k b1 h
    rcases h with h | h
    · rcases Mem.updateItem_step request books with hs | ⟨existing, updated, hfound, hs⟩
      · rw [hs] at h; exact ⟨b1, h, rfl⟩
      · rw [hs] at h
        by_cases hk : k = request.bookID
        · subst hk
          rw [Mem.lookup_insert_self] at h
          cases h
          exact ⟨existing, hfound, rfl⟩
        · rw [Mem.lookup_insert_ne books k _ _ hk] at h
          exact ⟨b1, h, rfl⟩
    · have hs : (Mem.deleteItem request books).2 = books.erase request.bookID := rfl
      rw [hs] at h
      by_cases hk : k = request.bookID
      · subst hk
        rw [Mem.lookup_erase_self] at h
        cases h
      · rw [Mem.lookup_erase_ne books k _ hk] at h
        exact ⟨b1, h, rfl⟩
  · intro disk disk1 books request r hload h
    rcases h with h | h
    · rcases Persist.updateBook_step request disk disk1 books r hload h with
        hs | ⟨c, existing, updated, hc, hfound, hs⟩
      · rw [hs]; exact ⟨books, hload, fun k b1 hk => ⟨b1, hk, rfl⟩⟩
      · cases hc
        refine ⟨_, hs, fun k b1 hk => ?_⟩
        by_cases hkk : k = request.bookID
        · subst hkk
          rw [Persist.index_assign_self] at hk
          cases hk
          exact ⟨existing, hfound, rfl⟩
        · rw [Persist.index_assign_ne c k _ _ hkk] at hk
          exact ⟨b1, hk, rfl⟩
    · refine ⟨_, Persist.deleteBook_step request disk disk1 books r hload h, fun k b1 hk => ?_⟩
      by_cases hkk : k = request.bookID
      · subst hkk
        rw [Persist.index_delete_self] at hk
        cases hk
      · rw [Persist.index_delete_ne books k _ hkk] at hk
        exact ⟨b1, hk, rfl⟩
  · intro books request rnd k b hreach hk
    rcases Mem.createItem_step request rnd books with hs | ⟨c, hs⟩
    · rw [hs]; exact ⟨b, hk, rfl⟩
    · rw [hs]
      by_cases hkk : k = generateID rnd
      · refine ⟨_, by rw [hkk]; exact Mem.lookup_insert_self books _ _, ?_⟩
        exact ((Mem.inv_of_reachable_items books hreach k b hk).1.trans hkk).symm
      · rw [Mem.lookup_insert_ne books k _ _ hkk]
        exact ⟨b, hk, rfl⟩
  · intro disk disk1 books request rnd r k b hreach hload hstep hk
    obtain ⟨c0, hload0, hinv⟩ := Persist.inv_of_reachable_disk disk hreach
    rw [hload] at hload0
    cases hload0
    rcases Persist.createBook_step request rnd disk disk1 _ r hload hstep with
      hs | ⟨c, b0, hc, hs⟩
    · rw [hs]; exact ⟨_, b, hload, hk, rfl⟩
    · cases hc
      by_cases hkk : k = generateID rnd
      · refine ⟨_, _, hs, by rw [hkk]; exact Persist.index_assign_self _ _ _, ?_⟩
        exact ((hinv k b hk).1.trans hkk).symm
      · refine ⟨_, b, hs, ?_, rfl⟩
        rw [Persist.index_assign_ne _ k _ _ hkk]
        exact hk

/-- C8, witness: the map after one create from the empty map, and the disk
after one create without data file, are reachable and satisfy the invariant. -/
theorem store_invariant_witness :
    (Mem.Reachable (Mem.createItem ⟨[], duneNameBody⟩ zeroRnd Coll.empty).2 ∧
      Mem.Inv (Mem.createItem ⟨[], duneNameBody⟩ zeroRnd Coll.empty).2) ∧
    (Persist.Reachable duneDisk ∧
      ∃ c, Persist.loadDataFromFile duneDisk = .ok (some c) ∧ Persist.Inv (some c)) :=
  ⟨⟨Mem.Reachable.create ⟨[], duneNameBody⟩ zeroRnd Mem.Reachable.start,
      store_invariant.1 _
        (Mem.Reachable.create ⟨[], duneNameBody⟩ zeroRnd Mem.Reachable.start)⟩,
    ⟨Persist.Reachable.create ⟨[], duneBody⟩ zeroRnd (Persist.Reachable.start true)
        (r := ⟨201, .book ⟨zeroID, goLit "Dune"⟩⟩) rfl,
      store_invariant.2.1 duneDisk
        (Persist.Reachable.create ⟨[], duneBody⟩ zeroRnd (Persist.Reachable.start true)
          (r := ⟨201, .book ⟨zeroID, goLit "Dune"⟩⟩) rfl)⟩⟩

/-- C9.  A mutating handler leaves every entry other than the affected one as
it was (the affected id is the generated id for create, the path id for update
and delete); get and list leave the map (the disk) as it was. -/
theorem frame_of_handlers :
    (∀ (books : Coll Mem.Book) (request : Request) (rnd : Fin 16 → Byte) (j : GoString),
      (j ≠ generateID rnd →
        (Mem.createItem request rnd books).2.lookup j = books.lookup j) ∧
      (j ≠ request.bookID →
        (Mem.updateItem request books).2.lookup j = books.lookup j ∧
        (Mem.deleteItem request books).2.lookup j = books.lookup j) ∧
      (Mem.getItem request books).2 = books ∧ (Mem.getItems request books).2 = books) ∧
    (∀ (disk disk1 : Persist.Disk) (books : GoMap Persist.Book) (request : Request)
        (rnd : Fin 16 → Byte) (r : Response Persist.Book),
      Persist.loadDataFromFile disk = .ok books →
      (Persist.createBook request rnd disk = .ok (r, disk1) →
        ∃ books1, Persist.loadDataFromFile disk1 = .ok books1 ∧
          ∀ j, j ≠ generateID rnd → books1.index j = books.index j) ∧
      (Persist.updateBook request disk = .ok (r, disk1) →
        ∃ books1, Persist.loadDataFromFile disk1 = .ok books1 ∧
          ∀ j, j ≠ request.bookID → books1.index j = books.index j) ∧
      (Persist.deleteBook request disk = .ok (r, disk1) →
        ∃ books1, Persist.loadDataFromFile disk1 = .ok books1 ∧
          ∀ j, j ≠ request.bookID → books1.index j = books.index j) ∧
      (Persist.getBook request disk = .ok (r, disk1) → disk1 = disk) ∧
      (Persist.getBooks request disk = .ok (r, disk1) → disk1 = disk)) := by
  constructor
  · intro books request rnd j
    refine ⟨fun hj => ?_, fun hj => ⟨?_, ?_⟩, Mem.getItem_step request books, rfl⟩
    · rcases Mem.createItem_step request rnd books with hs | ⟨b, hs⟩
      · rw [hs]
      · rw [hs, Mem.lookup_insert_ne books j _ _ hj]
    · rcases Mem.updateItem_step request books with hs | ⟨existing, updated, _, hs⟩
      · rw [hs]
      · rw [hs, Mem.lookup_insert_ne books j _ _ hj]
    · exact Mem.lookup_erase_ne books j _ hj
  · intro disk disk1 books request rnd r hload
    refine ⟨fun h => ?_, fun h => ?_, fun h => ?_, Persist.getBook_step request disk disk1 r,
      Persist.getBooks_step request disk disk1 r⟩
    · rcases Persist.createBook_step request rnd disk disk1 books r hload h with
        hs | ⟨c, b, hc, hs⟩
      · rw [hs]; exact ⟨books, hload, fun _ _ => rfl⟩
      · cases hc
        exact ⟨_, hs, fun j hj => Persist.index_assign_ne c j _ _ hj⟩
    · rcases Persist.updateBook_step request disk disk1 books r hload h with
        hs | ⟨c, existing, updated, hc, _, hs⟩
      · rw [hs]; exact ⟨books, hload, fun _ _ => rfl⟩
      · cases hc
        exact ⟨_, hs, fun j hj => Persist.index_assign_ne c j _ _ hj⟩
    · exact ⟨_, Persist.deleteBook_step request disk disk1 books r hload h,
        fun j hj => Persist.index_delete_ne books j _ hj⟩

/-- C9, witness: creating a second Book on the disk that holds the one Book
"Dune" returns and leaves every entry but the generated id as it was. -/
theorem frame_of_handlers_witness :
    Persist.loadDataFromFile duneDisk = .ok (some duneBooks) ∧
    Persist.createBook ⟨[], messiahBody⟩ onesRnd duneDisk
      = .ok (⟨201, .book ⟨generateID onesRnd, goLit "Dune Messiah"⟩⟩,
          Persist.written (some (duneBooks.insert (generateID onesRnd)
            ⟨generateID onesRnd, goLit "Dune Messiah"⟩))) ∧
    ∃ books1,
      Persist.loadDataFromFile (Persist.written (some (duneBooks.insert (generateID onesRnd)
        ⟨generateID onesRnd, goLit "Dune Messiah"⟩))) = .ok books1 ∧
      ∀ j, j ≠ generateID onesRnd → books1.index j = GoMap.index (some duneBooks) j :=
  ⟨rfl, rfl, (frame_of_handlers.2 duneDisk _ (some duneBooks) ⟨[], messiahBody⟩ onesRnd
    ⟨201, .book ⟨generateID onesRnd, goLit "Dune Messiah"⟩⟩ rfl).1 rfl⟩

/-- C10 fails on the code: when the data file holds the JSON literal `null`,
`loadDataFromFile` returns the nil map, and `createBook` with a parsable body
panics on the map assignment although the disk accepts writes; `updateBook` and
`deleteBook` do return there, and on the empty object `createBook` returns. -/
theorem create_panics_on_null_file :
    Persist.loadDataFromFile nullDisk = .ok none ∧
    nullDisk.writable = true ∧
    Persist.ReadEntity duneBody = .ok ⟨[], goLit "Dune"⟩ ∧
    Persist.createBook ⟨[], duneBody⟩ zeroRnd nullDisk = .error .nilMapAssignment ∧
    Persist.updateBook ⟨zeroID, duneBody⟩ nullDisk
      = .ok (⟨404, .error "Book not found"⟩, nullDisk) ∧
    Persist.deleteBook ⟨zeroID, .unreadable⟩ nullDisk = .ok (⟨204, .none⟩, nullDisk) ∧
    Persist.loadDataFromFile ⟨some (.json (.object [])), true⟩ = .ok (some Coll.empty) ∧
    Persist.createBook ⟨[], duneBody⟩ zeroRnd ⟨some (.json (.object [])), true⟩
      = .ok (⟨201, .book ⟨zeroID, goLit "Dune"⟩⟩, duneDisk) :=
  ⟨rfl, rfl, rfl, rfl, rfl, rfl, rfl, rfl⟩
